import Mathlib

/-!
Verification of the F&B audit application's core logic: the unit-audit and
staff-evaluation score engines, the date normalizers, the duplicate-prevention
submit flows, and the report aggregation/range-filter pipeline.

JavaScript strings are modelled as `List Char` (`Str`); JavaScript numbers that
occur in this core are integers and exact fractions, modelled as `ℤ` and `ℚ`.
`new Date(string)` generic parsing is host-defined, so it is threaded through
the definitions as an explicit parameter.
-/

/-- JS strings are modelled as lists of characters. -/
abbrev Str := List Char

/-- Coerce a Lean string literal to the JS string model. -/
def str (s : String) : Str := s.toList

/-- ASCII lower-casing of one character, the effect of
`String.prototype.toLowerCase` on the characters this app manipulates. -/
def lowerChar (c : Char) : Char :=
  if 65 ≤ c.toNat ∧ c.toNat ≤ 90 then Char.ofNat (c.toNat + 32) else c

/-- `s.toLowerCase()`. -/
def jsToLower (s : Str) : Str := s.map lowerChar

/-- The whitespace characters recognised by `String.prototype.trim`
(space, tab, line feed, vertical tab, form feed, carriage return, NBSP,
line/paragraph separator, BOM). -/
def jsIsWs (c : Char) : Bool :=
  c.toNat = 32 || c.toNat = 9 || c.toNat = 10 || c.toNat = 11 || c.toNat = 12 ||
  c.toNat = 13 || c.toNat = 160 || c.toNat = 8232 || c.toNat = 8233 || c.toNat = 65279

/-- `s.trim()`: strip leading and trailing whitespace. -/
def jsTrim (s : Str) : Str :=
  ((s.dropWhile jsIsWs).reverse.dropWhile jsIsWs).reverse

/-- `s.padStart(2, "0")`. -/
def jsPadStart2 (s : Str) : Str :=
  if 2 ≤ s.length then s else List.replicate (2 - s.length) '0' ++ s

/-- `s.split(sep)` for a one-character separator: all fields, empty fields kept. -/
def jsSplitOn (sep : Char) : Str → List Str
  | [] => [[]]
  | c :: cs =>
    match jsSplitOn sep cs with
    | [] => [[c]]
    | p :: ps => if c = sep then [] :: p :: ps else (c :: p) :: ps

/-- Whether `needle` occurs at the start of `hay`. -/
def leadsWith : Str → Str → Bool
  | [], _ => true
  | _ :: _, [] => false
  | a :: as, b :: bs => a = b && leadsWith as bs

/-- `hay.includes(needle)`: substring occurrence. -/
def containsSub (needle : Str) : Str → Bool
  | [] => leadsWith needle []
  | c :: t => leadsWith needle (c :: t) || containsSub needle t

/-- `k.endsWith(suffix)`. -/
def endsWithSuffix (suffix k : Str) : Bool := leadsWith suffix.reverse k.reverse

/-- ASCII digit test, the character class `\d` of the date regexes. -/
def isDigitC (c : Char) : Bool := 48 ≤ c.toNat ∧ c.toNat ≤ 57

/-- Nonempty all-digit string. -/
def isDigitStr (s : Str) : Bool := !s.isEmpty && s.all isDigitC

/-- Numeric value of an all-digit string. -/
def digitsVal (s : Str) : ℕ := s.foldl (fun a c => 10 * a + (c.toNat - 48)) 0

/-- `String(n)` for a natural number. -/
def natToStr (n : ℕ) : Str := (Nat.repr n).toList

/-! ## AuditForm.js: unit-audit checklist parameters and score engine -/

/-- The five kitchen checklist item labels (`kitchenParams`). -/
def kitchenParams : List Str :=
  [str "Overall kitchen cleanliness maintained",
   str "Floors, walls, and ceilings clean and dry",
   str "Cooking range and equipment properly cleaned",
   str "Exhaust system functioning and cleaned",
   str "Waste segregation & disposal followed"]

/-- The three personal-hygiene checklist item labels (`hygieneParams`). -/
def hygieneParams : List Str :=
  [str "Staff wearing clean uniform, cap, gloves, mask",
   str "Personal hygiene maintained (nails, hair, hand wash)",
   str "Hand wash & sanitizer available and used"]

/-- The five food-safety checklist item labels (`foodSafetyParams`). -/
def foodSafetyParams : List Str :=
  [str "Bain Marie temperature maintained (>=60¬∞C)",
   str "Fridge temperature maintained (<=5¬∞C)",
   str "Freezer temperature maintained (<=-18¬∞C)",
   str "Raw and cooked food stored separately",
   str "Expiry date & labelling followed"]

/-- All thirteen checklist labels in checking order. -/
def allParams : List Str := kitchenParams ++ hygieneParams ++ foodSafetyParams

/-- The observations preset dropdown (`observationsOptions`). -/
def observationsOptions : List Str :=
  [str "-- Select --",
   str "No issues observed",
   str "Minor cleanliness issues (surface/sweep)",
   str "Food held outside safe temperature range",
   str "Cross-contamination risk observed",
   str "Staff hygiene non-compliant",
   str "Equipment malfunction (e.g., oven/fridge)",
   str "Pest activity or droppings noted",
   str "Expired or damaged items found",
   str "Insufficient labeling / traceability",
   str "Other (manual)"]

/-- The maintenance preset dropdown (`maintenanceOptions`). -/
def maintenanceOptions : List Str :=
  [str "-- Select --",
   str "No maintenance required",
   str "Immediate cleaning required",
   str "Schedule deep-cleaning",
   str "Repair or service equipment",
   str "Replace expired/damaged stock",
   str "Retrain staff on hygiene & PPE",
   str "Improve waste segregation & disposal",
   str "Adjust/monitor temperature controls",
   str "Improve labeling & storage procedures",
   str "Implement daily cleaning checklist",
   str "Other (manual)"]

/-- `POINTS_PER_CHECK = 6`. -/
def POINTS_PER_CHECK : ℤ := 6

/-- `OBS_MAINT_PTS = 11`. -/
def OBS_MAINT_PTS : ℤ := 11

/-- `manual && manual.trim().toLowerCase().includes("no issue")`. -/
def manualNoIssue (manual : Str) : Bool :=
  !manual.isEmpty && containsSub (str "no issue") (jsToLower (jsTrim manual))

/-- `getObservationScore(preset, manual)` from AuditForm.js. -/
def getObservationScore (preset manual : Str) : ℤ :=
  let p := jsToLower preset
  if p = str "no issues observed" then OBS_MAINT_PTS
  else if containsSub (str "other") p then
    (if manualNoIssue manual then OBS_MAINT_PTS else -OBS_MAINT_PTS)
  else if preset.isEmpty ∨ preset = str "-- Select --" then 0
  else -OBS_MAINT_PTS

/-- `getMaintenanceScore(preset, manual)` from AuditForm.js. -/
def getMaintenanceScore (preset manual : Str) : ℤ :=
  let p := jsToLower preset
  if p = str "no maintenance required" ∨ p = str "no issues observed" then OBS_MAINT_PTS
  else if containsSub (str "other") p then
    (if manualNoIssue manual then OBS_MAINT_PTS else -OBS_MAINT_PTS)
  else if preset.isEmpty ∨ preset = str "-- Select --" then 0
  else -OBS_MAINT_PTS

/-- `kitchenObj?.[label] ?? hygieneObj?.[label] ?? foodObj?.[label]`: answer maps
are partial maps from label to the stored answer string. -/
def lookupAns (kitchenObj hygieneObj foodObj : Str → Option Str) (label : Str) : Option Str :=
  (kitchenObj label).orElse fun _ => (hygieneObj label).orElse fun _ => foodObj label

/-- `String(val).toLowerCase() === "yes"` (`String(undefined)` is `"undefined"`). -/
def ansIsYes (v : Option Str) : Bool :=
  match v with
  | some s => jsToLower s = str "yes"
  | none => false

/-- Result record of `computeScores`. -/
structure ScoreResult where
  checklistRaw : ℤ
  obsScore : ℤ
  maintScore : ℤ
  rawScore : ℤ
  scoreOutOf100 : ℤ
  maxChecklist : ℤ
deriving DecidableEq

/-- `computeScores` from AuditForm.js: 6 points per "Yes" checklist answer plus
the two remark scores, final score clamped to `[0, 100]`. -/
def computeScores (kitchenObj hygieneObj foodObj : Str → Option Str)
    (observationsPreset observationsManual maintenancePreset maintenanceManual : Str) :
    ScoreResult :=
  let checklistRaw := allParams.foldl
    (fun acc label =>
      if ansIsYes (lookupAns kitchenObj hygieneObj foodObj label) then acc + POINTS_PER_CHECK
      else acc) 0
  let obsScore := getObservationScore observationsPreset observationsManual
  let maintScore := getMaintenanceScore maintenancePreset maintenanceManual
  let rawScore := checklistRaw + obsScore + maintScore
  let finalScore := max 0 (min 100 rawScore)
  { checklistRaw := checklistRaw, obsScore := obsScore, maintScore := maintScore,
    rawScore := rawScore, scoreOutOf100 := finalScore,
    maxChecklist := (allParams.length : ℤ) * POINTS_PER_CHECK }

/-! ## StaffEvaluation.js: staff-evaluation score engine -/

/-- The five fixed evaluation parameters (`params`). -/
def staffParams : List Str :=
  [str "Attendance / Punctuality",
   str "Work Discipline",
   str "Food Taste / Quality",
   str "Hygiene & Grooming",
   str "Teamwork / Attitude"]

/-- `RATING_VALUE` lookup table; `none` models an undefined property. -/
def RATING_VALUE (r : Str) : Option ℤ :=
  if r = str "Excellent" then some 100
  else if r = str "Good" then some 80
  else if r = str "Average" then some 60
  else if r = str "Poor" then some 40
  else none

/-- The values pushed into `vals` by `computeStaffScore`:
`r && RATING_VALUE[r] !== undefined` (the empty string is not in the table,
so truthiness adds nothing). -/
def answeredVals (ratings : Str → Option Str) : List ℤ :=
  staffParams.filterMap fun k =>
    match ratings k with
    | some r => if !r.isEmpty then RATING_VALUE r else none
    | none => none

/-- `computeStaffScore(ratingsObj)` from StaffEvaluation.js.
`Math.round(sum / n)` rounds half away from -∞, i.e. `⌊x + 1/2⌋`, which for a
sum of integers equals `fdiv (2 * sum + n) (2 * n)`. -/
def computeStaffScore (ratings : Str → Option Str) : Option ℤ :=
  let vals := answeredVals ratings
  if vals.isEmpty then none
  else some (Int.fdiv (2 * vals.sum + vals.length) (2 * vals.length))

/-- `scoreToGrade` from StaffEvaluation.js. -/
def scoreToGrade (n : ℤ) : Str :=
  if 90 ≤ n then str "A"
  else if 75 ≤ n then str "B"
  else if 60 ≤ n then str "C"
  else str "D"

/-! ## Date normalizers

`new Date(...)` generic string parsing is host-defined; it is modelled as an
explicit parameter `g`. A successfully parsed date is read back through
`getDate()` / `getMonth() + 1` / `getFullYear()`, modelled by `CalDate`
(`month` is already 1-based). -/

/-- The local calendar fields of a parsed `Date`: `getDate()`, `getMonth() + 1`,
`getFullYear()`. -/
structure CalDate where
  day : ℕ
  month : ℕ
  year : ℕ
deriving DecidableEq

/-- Render a parsed date as `dd/mm/yyyy` with zero padding, as both
normalizers do on their generic-parse branch. -/
def renderCalDate (d : CalDate) : Str :=
  jsPadStart2 (natToStr d.day) ++ str "/" ++ jsPadStart2 (natToStr d.month) ++ str "/" ++
    natToStr d.year

/-- StaffEvaluation.js `ensureDDMMYYYY`, lines 21-23: pick slash parts if the
string has a `/`, else dash parts if it has a `-`. -/
def slashDashParts (s : Str) : Option (List Str) :=
  if s.contains '/' then some (jsSplitOn '/' s)
  else if s.contains '-' then some (jsSplitOn '-' s)
  else none

/-- StaffEvaluation.js `ensureDDMMYYYY`, lines 24-27: on exactly three parts with
`p1.length <= 2 && p2.length <= 2 && p3.length === 4`, re-emit zero-padded. -/
def padIfDMY : List Str → Option Str
  | [p1, p2, p3] =>
    if p1.length ≤ 2 ∧ p2.length ≤ 2 ∧ p3.length = 4 then
      some (jsPadStart2 p1 ++ str "/" ++ jsPadStart2 p2 ++ str "/" ++ p3)
    else none
  | _ => none

/-- `ensureDDMMYYYY(input)` from StaffEvaluation.js. `none` input models
`undefined`/`null`. -/
def ensureDDMMYYYY (g : Str → Option CalDate) (input : Option Str) : Str :=
  match input with
  | none => []
  | some raw =>
    let s := jsTrim raw
    match (slashDashParts s).bind padIfDMY with
    | some out => out
    | none =>
      match g s with
      | some d => renderCalDate d
      | none => s

/-- AuditForm.js `formatDateDDMMYYYY`, line 13: the test
`/^\d{1,2}\/\d{1,2}\/\d{4}$/` on the trimmed value together with the padded
re-emission of lines 14-18. -/
def regexPadDMY (t : Str) : Option Str :=
  match jsSplitOn '/' t with
  | [a, b, c] =>
    if isDigitStr a ∧ a.length ≤ 2 ∧ isDigitStr b ∧ b.length ≤ 2 ∧
        isDigitStr c ∧ c.length = 4 then
      some (jsPadStart2 a ++ str "/" ++ jsPadStart2 b ++ str "/" ++ c)
    else none
  | _ => none

/-- `formatDateDDMMYYYY(dateValue)` from AuditForm.js, restricted to string
inputs (`String(dateValue)` is then the identity). On generic-parse failure the
original, untrimmed input is returned. -/
def formatDateDDMMYYYY (g : Str → Option CalDate) (dateValue : Option Str) : Str :=
  match dateValue with
  | none => []
  | some v =>
    if v.isEmpty then []
    else
      match regexPadDMY (jsTrim v) with
      | some out => out
      | none =>
        match g v with
        | some d => renderCalDate d
        | none => v

/-! ## RetrieveReports.js: date range filtering

A JS `Date` value is its millisecond timestamp; the model works in local-time
milliseconds throughout (the app runs in a single time zone, and the spec
requires local calendar semantics). -/

/-- `Number(s)` restricted to the shapes this app stores in date fields: the
empty (or all-whitespace) string is `0`, a digit string is its value, and
anything else is modelled as `NaN` (`none`). -/
def jsNumber (s : Str) : Option ℤ :=
  let t := jsTrim s
  if t.isEmpty then some 0
  else if isDigitStr t then some (digitsVal t) else none

/-- Days from the civil epoch 1970-01-01 for year/month/day fields, linear in
`d` exactly as the `Date(year, month, day)` constructor normalizes day
overflow. Valid for any `d` and `m ∈ [1, 12]`. -/
def daysFromCivil (y m d : ℤ) : ℤ :=
  let y2 := if m ≤ 2 then y - 1 else y
  let era := Int.fdiv y2 400
  let yoe := y2 - era * 400
  let mp := Int.emod (m + 9) 12
  let doy := Int.fdiv (153 * mp + 2) 5 + d - 1
  let doe := yoe * 365 + Int.fdiv yoe 4 - Int.fdiv yoe 100 + doy
  era * 146097 + doe - 719468

/-- Milliseconds per day. -/
def msPerDay : ℤ := 86400000

/-- `new Date(y, mIdx, day)`: local midnight of the (overflow-normalized)
calendar day, in local-time ms, including the two-digit-year 1900 quirk. -/
def jsMakeDate (y mIdx day : ℤ) : ℤ :=
  let yy := if 0 ≤ y ∧ y ≤ 99 then y + 1900 else y
  daysFromCivil (yy + Int.fdiv mIdx 12) (Int.emod mIdx 12 + 1) day * msPerDay

/-- `parseDDMMYYYYtoDate(ddmmyy)` from RetrieveReports.js: split on `/`; with
exactly three parts build `new Date(year, month - 1, day)` (a NaN component
gives an invalid date, i.e. `null`); otherwise fall back to generic parsing. -/
def parseDDMMYYYYtoDate (g : Str → Option ℤ) (ddmmyy : Str) : Option ℤ :=
  if ddmmyy.isEmpty then none
  else
    match jsSplitOn '/' ddmmyy with
    | [dS, mS, yS] =>
      match jsNumber dS, jsNumber mS, jsNumber yS with
      | some day, some month, some year => some (jsMakeDate year (month - 1) day)
      | _, _, _ => none
    | _ => g ddmmyy

/-- `isoToLocalDate(iso)` from RetrieveReports.js: split on `-`; with exactly
three parts build the local date from the numeric fields, else generic parse. -/
def isoToLocalDate (g : Str → Option ℤ) (iso : Str) : Option ℤ :=
  if iso.isEmpty then none
  else
    match jsSplitOn '-' iso with
    | [yS, mS, dS] =>
      match jsNumber yS, jsNumber mS, jsNumber dS with
      | some y, some m, some d => some (jsMakeDate y (m - 1) d)
      | _, _, _ => none
    | _ => g iso

/-- `from.setHours(0, 0, 0, 0)`: floor to local midnight. -/
def jsSetHoursStart (t : ℤ) : ℤ := Int.fdiv t msPerDay * msPerDay

/-- `to.setHours(23, 59, 59, 999)`: last millisecond of the local day. -/
def jsSetHoursEnd (t : ℤ) : ℤ := Int.fdiv t msPerDay * msPerDay + (msPerDay - 1)

/-- `withinRange(dateDD, fromISO, toISO)` from RetrieveReports.js. -/
def withinRange (g : Str → Option ℤ) (dateDD fromISO toISO : Str) : Bool :=
  match parseDDMMYYYYtoDate g dateDD with
  | none => false
  | some d =>
    if fromISO.isEmpty && toISO.isEmpty then true
    else
      let fromT := if fromISO.isEmpty then none else (isoToLocalDate g fromISO).map jsSetHoursStart
      let toT := if toISO.isEmpty then none else (isoToLocalDate g toISO).map jsSetHoursEnd
      if (match fromT with | some f => decide (d < f) | none => false) then false
      else if (match toT with | some t0 => decide (t0 < d) | none => false) then false
      else true

/-- A generic date parser that fails on every input, standing in for
`new Date(s)` on strings no host engine parses. -/
def gNone : Str → Option ℤ := fun _ => none

/-! ## Record store and submit flows

The Firestore collections are modelled as in-memory lists; an equality-filter
query is a list filter. A possibly failing query is modelled by an `Option`
error injected ahead of the query (`qfail`): `some e` means the store call
throws `e`, `none` means it returns the matching documents. -/

/-- The fields of a `unitAudits` document that the submit flow reads back. -/
structure UnitAuditRec where
  branch : Str
  city : Str
  auditor : Str
  date : Str
  scoreOutOf100 : ℤ
deriving DecidableEq

/-- Outcome of AuditForm.js `handleSubmit` (after validation passed). -/
inductive UnitSubmitOutcome where
  | conflict (msg : Str)
  | saved
  | storeError (e : Str)
deriving DecidableEq

/-- The duplicate alert of AuditForm.js line 316. -/
def unitConflictAlert (b d : Str) : Str :=
  str "‚ùå A Unit Audit for branch \"" ++ b ++ str "\" on " ++ d ++
    str " already exists. Only one audit per branch per day is allowed."

/-- AuditForm.js `handleSubmit`, lines 308-327: query `unitAudits` for
`branch == payload.branch && date == payload.date`; a non-empty snapshot
aborts with the conflict alert, otherwise the payload is added. A throwing
query is caught and reported with no write. -/
def unitHandleSubmit (qfail : Option Str) (store : List UnitAuditRec)
    (payload : UnitAuditRec) : UnitSubmitOutcome × List UnitAuditRec :=
  match qfail with
  | some e => (.storeError e, store)
  | none =>
    let snap := store.filter fun r => decide (r.branch = payload.branch ∧ r.date = payload.date)
    if !snap.isEmpty then
      (.conflict (unitConflictAlert payload.branch payload.date), store)
    else (.saved, store ++ [payload])

/-- The fields of a `staffEvaluations` document read by the retrieval,
aggregation and duplicate-check code. `empCode`/`staffName` use the empty
string for an absent field (both sites guard with JS truthiness); numeric
score fields are `none` when absent or non-numeric (`Number(s)` is `NaN`). -/
structure SEDoc where
  id : Option Str
  empCode : Str
  staffName : Str
  scoreOutOf100 : Option ℚ
  totalMarks : Option ℚ
  total : Option ℚ
  timestampSeconds : Option ℤ
  createdAtSeconds : Option ℤ
  selBranch : Str
  selCity : Str
  branch : Str
  city : Str
  selDate : Option Str
  date : Option Str
  ratings : List (Str × Str)
deriving DecidableEq

/-- Outcome of StaffEvaluation.js `handleSubmit` (after validation passed). -/
inductive StaffSubmitOutcome where
  | dateMissing
  | duplicate (msg : Str)
  | saved
deriving DecidableEq

/-- StaffEvaluation.js `checkDuplicateForDate`, lines 254-265: query
`staffEvaluations` for `empCode == empCode && selection.date == dateDD`
(with `limit(1)`) and report whether the snapshot is non-empty; a throwing
query is caught and reported as `false` ("no duplicate") so that submission
is not blocked. -/
def checkDuplicateForDate (qfail : Option Str) (store : List SEDoc)
    (empCode dateDD : Str) : Bool :=
  match qfail with
  | some _ => false
  | none =>
    !(((store.filter fun r =>
        decide (r.empCode = empCode ∧ r.selDate = some dateDD)).take 1).isEmpty)

/-- The duplicate alert of StaffEvaluation.js line 284. -/
def staffConflictAlert (empCode dateDD : Str) : Str :=
  str "❌ An evaluation for Emp Code \"" ++ empCode ++ str "\" already exists for " ++
    dateDD ++ str ". Only one evaluation per staff per day is allowed."

/-- StaffEvaluation.js `handleSubmit`, lines 268-311 (after validation):
require a normalized date, check for a duplicate with the trimmed employee
code, and only then add the payload document. -/
def staffHandleSubmit (qfail : Option Str) (store : List SEDoc)
    (formEmpCode dateDD : Str) (payload : SEDoc) : StaffSubmitOutcome × List SEDoc :=
  if dateDD.isEmpty then (.dateMissing, store)
  else
    let empCode := jsTrim formEmpCode
    if checkDuplicateForDate qfail store empCode dateDD then
      (.duplicate (staffConflictAlert empCode dateDD), store)
    else (.saved, store ++ [payload])

/-! ## RetrieveReports.js: deduplication and aggregation -/

/-- `item.id ?? JSON.stringify(item)`; the stringifier is host glue and is
passed in as a parameter. -/
def docId (stringify : SEDoc → Str) (r : SEDoc) : Str :=
  match r.id with
  | some i => i
  | none => stringify r

/-- The loop of `dedupeById` with its `seen` set of ids. -/
def dedupeAux (stringify : SEDoc → Str) (seen : List Str) : List SEDoc → List SEDoc
  | [] => []
  | x :: xs =>
    if docId stringify x ∈ seen then dedupeAux stringify seen xs
    else x :: dedupeAux stringify (docId stringify x :: seen) xs

/-- `dedupeById(arr)` from RetrieveReports.js. -/
def dedupeById (stringify : SEDoc → Str) (arr : List SEDoc) : List SEDoc :=
  dedupeAux stringify [] arr

/-- `r.selection?.date ?? r.date ?? ""`, the record date handed to
`withinRange` by the staff-evaluation query filter. -/
def rDateOf (r : SEDoc) : Str := ((r.selDate).orElse fun _ => r.date).getD []

/-- The client-side range filter applied by `runQuery` to the fetched
staff-evaluation documents. -/
def filterStaffRange (g : Str → Option ℤ) (docs : List SEDoc) (fromISO toISO : Str) :
    List SEDoc :=
  docs.filter fun r => withinRange g (rDateOf r) fromISO toISO

/-- `r.empCode ? String(r.empCode).trim() : ""`. -/
def recCode (r : SEDoc) : Str := if r.empCode.isEmpty then [] else jsTrim r.empCode

/-- `r.staffName ? String(r.staffName).trim() : ""`. -/
def recName (r : SEDoc) : Str := if r.staffName.isEmpty then [] else jsTrim r.staffName

/-- `(code || name).toLowerCase()`, the grouping key of `employeesAggregated`.
(When both code and name are blank the JS code substitutes a random key; the
claims only concern records with a nonempty code or name.) -/
def recKey (r : SEDoc) : Str :=
  jsToLower (if (recCode r).isEmpty then recName r else recCode r)

/-- First-occurrence order of grouping keys, the iteration order of the JS
`Map` built by `employeesAggregated`. -/
def keysInOrder (rs : List SEDoc) : List Str :=
  rs.foldl (fun acc r => if recKey r ∈ acc then acc else acc ++ [recKey r]) []

/-- The records collected under one grouping key, in input order. -/
def groupOf (rs : List SEDoc) (k : Str) : List SEDoc :=
  rs.filter fun r => decide (recKey r = k)

/-- `(x.timestamp && x.timestamp.seconds) || (x.createdAt && x.createdAt.seconds) || 0`
(note `0` is falsy, so a zero `timestamp.seconds` falls through). -/
def tsOf (r : SEDoc) : ℤ :=
  match r.timestampSeconds with
  | some v => if v ≠ 0 then v else match r.createdAtSeconds with | some w => w | none => 0
  | none => match r.createdAtSeconds with | some w => w | none => 0

/-- `sorted[0]` of the stable sort by descending timestamp: the first record
in input order attaining the maximal timestamp. -/
def latestOf (first : SEDoc) (rest : List SEDoc) : SEDoc :=
  rest.foldl (fun b r => if tsOf b < tsOf r then r else b) first

/-- `d.scoreOutOf100 ?? d.totalMarks ?? d.total ?? null` followed by the
numeric filter of `employeesAggregated`. -/
def scoreValOf (r : SEDoc) : Option ℚ :=
  (r.scoreOutOf100).orElse fun _ => (r.totalMarks).orElse fun _ => r.total

/-- `avgScoreToLabel` from RetrieveReports.js, on an actual number (the
`null`/`NaN` guard is applied by the caller before reaching the thresholds). -/
def avgScoreToLabel (s : ℚ) : Str :=
  if 90 ≤ s then str "Excellent"
  else if 75 ≤ s then str "Good"
  else if 60 ≤ s then str "Average"
  else str "Poor"

/-- A first non-empty string, for the `(a || b || "-")` display fallbacks. -/
def jsTruthyStr (s : Str) : Option Str := if s.isEmpty then none else some s

/-- One output row of `employeesAggregated`. -/
structure AggRow where
  empCode : Str
  staffName : Str
  count : ℕ
  avg : Option ℚ
  label : Str
  branch : Str
  city : Str
deriving DecidableEq

/-- `(latest.selection && latest.selection.branch) || latest.branch || "-"`. -/
def rowBranch (latest : SEDoc) : Str :=
  ((jsTruthyStr latest.selBranch).orElse fun _ => jsTruthyStr latest.branch).getD (str "-")

/-- `(latest.selection && latest.selection.city) || latest.city || "-"`. -/
def rowCity (latest : SEDoc) : Str :=
  ((jsTruthyStr latest.selCity).orElse fun _ => jsTruthyStr latest.city).getD (str "-")

/-- The row built from one key's record group by `employeesAggregated`:
the stored `empCode`/`staffName` come from the first record of the group
(set when the `Map` entry was created), `count` is the group size, `avg` the
mean of the numeric scores (ignoring records without one), `label` the
qualitative label of the mean. -/
def mkRow : List SEDoc → AggRow
  | [] =>
    { empCode := [], staffName := [], count := 0, avg := none, label := str "-",
      branch := str "-", city := str "-" }
  | first :: rest =>
    let latest := latestOf first rest
    let ns := (first :: rest).filterMap scoreValOf
    let avg : Option ℚ := if ns.isEmpty then none else some (ns.sum / (ns.length : ℚ))
    { empCode := recCode first, staffName := recName first,
      count := (first :: rest).length,
      avg := avg,
      label := match avg with | some a => avgScoreToLabel a | none => str "-",
      branch := rowBranch latest, city := rowCity latest }

/-- Code-unit comparison of names, modelling the final
`localeCompare`-based presentation sort (stable, as JS `sort` is). -/
def strLe : Str → Str → Bool
  | [], _ => true
  | _ :: _, [] => false
  | a :: as, b :: bs => if a = b then strLe as bs else decide (a.toNat < b.toNat)

/-- `employeesAggregated` from RetrieveReports.js: group the results by
`recKey`, build one row per key, and sort rows by staff name for display. -/
def employeesAggregated (results : List SEDoc) : List AggRow :=
  (((keysInOrder results).map fun k => mkRow (groupOf results k)).mergeSort
    fun a b => strLe a.staffName b.staffName)

/-- `collectParameterNames(docs)` from RetrieveReports.js: every ratings key
seen across the documents, skipping `_remarks`-suffixed keys, in first-seen
order (`Set` insertion order). -/
def collectParameterNames (docs : List SEDoc) : List Str :=
  docs.foldl (fun acc d =>
    (d.ratings.map Prod.fst).foldl (fun acc2 k =>
      if endsWithSuffix (str "_remarks") k then acc2
      else if k ∈ acc2 then acc2 else acc2 ++ [k]) acc) []

/-- Per-parameter rating counters. -/
structure ParamStat where
  excellent : ℕ
  good : ℕ
  average : ℕ
  poor : ℕ
  total : ℕ
deriving DecidableEq

/-- The counting loop of `computeParameterStats` for one parameter:
`if (v && ratings.includes(v))` bump that rating's counter and the total. -/
def statFor (docs : List SEDoc) (p : Str) : ParamStat :=
  docs.foldl (fun st d =>
    match d.ratings.lookup p with
    | some v =>
      if v = str "Excellent" then { st with excellent := st.excellent + 1, total := st.total + 1 }
      else if v = str "Good" then { st with good := st.good + 1, total := st.total + 1 }
      else if v = str "Average" then { st with average := st.average + 1, total := st.total + 1 }
      else if v = str "Poor" then { st with poor := st.poor + 1, total := st.total + 1 }
      else st
    | none => st) ⟨0, 0, 0, 0, 0⟩

/-- `computeParameterStats(docs)` from RetrieveReports.js: the observed
parameter names and the per-parameter counters. -/
def computeParameterStats (docs : List SEDoc) : List Str × (Str → ParamStat) :=
  (collectParameterNames docs, statFor docs)

/-! ## Claim C1: unit-audit score -/

/-- Claim-side count of checklist items answered "Yes" across the three
categories. -/
def countYes (kitchenObj hygieneObj foodObj : Str → Option Str) : ℕ :=
  allParams.countP fun l => decide (lookupAns kitchenObj hygieneObj foodObj l = some (str "Yes"))

/-- Claim-side remark score: +11 for the designated no-issue sentinel, or for
"Other (manual)" whose manual text case-insensitively mentions "no issue";
0 for the "-- Select --" sentinel; -11 for any other selected preset. -/
def remarkScoreSpec (noIssueOpt preset manual : Str) : ℤ :=
  if preset = noIssueOpt ∨ (preset = str "Other (manual)" ∧ manualNoIssue manual = true) then 11
  else if preset = str "-- Select --" then 0
  else -11

/-- A constant checklist answer map (every item answered `v`). -/
def ansConst (v : String) : Str → Option Str := fun _ => some (str v)

lemma computeScores_scoreOutOf100 (k h f : Str → Option Str) (op om mp mm : Str) :
    (computeScores k h f op om mp mm).scoreOutOf100 =
      max 0 (min 100
        (allParams.foldl
          (fun acc label =>
            if ansIsYes (lookupAns k h f label) then acc + POINTS_PER_CHECK else acc) 0 +
          getObservationScore op om + getMaintenanceScore mp mm)) := rfl

lemma foldl_yes_count (v : Str → Option Str) :
    ∀ (L : List Str) (acc : ℤ),
      (∀ l ∈ L, v l = some (str "Yes") ∨ v l = some (str "No")) →
      L.foldl (fun acc label => if ansIsYes (v label) then acc + POINTS_PER_CHECK else acc) acc =
        acc + POINTS_PER_CHECK * ((L.countP fun l => decide (v l = some (str "Yes"))) : ℤ)
  | [], acc, _ => by simp
  | a :: t, acc, h => by
    have ht : ∀ l ∈ t, v l = some (str "Yes") ∨ v l = some (str "No") :=
      fun l hl => h l (List.mem_cons_of_mem a hl)
    rcases h a (List.mem_cons_self a t) with hY | hN
    · have hy : ansIsYes (v a) = true := by rw [hY]; decide
      have hde : (decide (v a = some (str "Yes"))) = true := by rw [hY]; decide
      have step : (if ansIsYes (v a) then acc + POINTS_PER_CHECK else acc) =
          acc + POINTS_PER_CHECK := by rw [hy]; simp
      rw [List.foldl_cons, List.countP_cons, hde, step,
        foldl_yes_count v t (acc + POINTS_PER_CHECK) ht]
      push_cast
      simp
      try ring
    · have hy : ansIsYes (v a) = false := by rw [hN]; decide
      have hne : (decide (v a = some (str "Yes"))) = false := by
        rw [hN]; decide
      have step : (if ansIsYes (v a) then acc + POINTS_PER_CHECK else acc) = acc := by
        rw [hy]; simp
      rw [List.foldl_cons, List.countP_cons, hne, step, foldl_yes_count v t acc ht]
      push_cast
      simp

lemma getObservationScore_spec (op : Str) (hop : op ∈ observationsOptions) (om : Str) :
    getObservationScore op om = remarkScoreSpec (str "No issues observed") op om := by
  fin_cases hop <;>
    (cases hmn : manualNoIssue om <;>
      simp only [getObservationScore, remarkScoreSpec, hmn] <;> decide)

lemma getMaintenanceScore_spec (mp : Str) (hmp : mp ∈ maintenanceOptions) (mm : Str) :
    getMaintenanceScore mp mm = remarkScoreSpec (str "No maintenance required") mp mm := by
  fin_cases hmp <;>
    (cases hmn : manualNoIssue mm <;>
      simp only [getMaintenanceScore, remarkScoreSpec, hmn] <;> decide)

/-- Claim C1: for every unit-audit input (Yes/No answers over the 13 fixed
checklist items, plus a preset/manual pair for observations and for
maintenance drawn from the dropdowns), `computeScores` returns
`scoreOutOf100 = clamp(6 * yesCount + obs + maint, 0, 100)` where each remark
score is +11 for the no-issue sentinel or "Other" mentioning "no issue", 0 for
"-- Select --", and -11 otherwise; the final score always lies in `[0, 100]`;
the all-"No", both-penalties input scores 0 and the all-"Yes", both-sentinels
input scores 100. -/
theorem C1_unit_audit_score (kitchenObj hygieneObj foodObj : Str → Option Str)
    (op om mp mm : Str)
    (hans : ∀ l ∈ allParams,
      lookupAns kitchenObj hygieneObj foodObj l = some (str "Yes") ∨
      lookupAns kitchenObj hygieneObj foodObj l = some (str "No"))
    (hop : op ∈ observationsOptions) (hmp : mp ∈ maintenanceOptions) :
    (computeScores kitchenObj hygieneObj foodObj op om mp mm).scoreOutOf100 =
      max 0 (min 100 (6 * (countYes kitchenObj hygieneObj foodObj : ℤ) +
        remarkScoreSpec (str "No issues observed") op om +
        remarkScoreSpec (str "No maintenance required") mp mm)) ∧
    (0 ≤ (computeScores kitchenObj hygieneObj foodObj op om mp mm).scoreOutOf100 ∧
      (computeScores kitchenObj hygieneObj foodObj op om mp mm).scoreOutOf100 ≤ 100) ∧
    (computeScores (ansConst "No") (ansConst "No") (ansConst "No")
      (str "Minor cleanliness issues (surface/sweep)") []
      (str "Immediate cleaning required") []).scoreOutOf100 = 0 ∧
    (computeScores (ansConst "Yes") (ansConst "Yes") (ansConst "Yes")
      (str "No issues observed") [] (str "No maintenance required") []).scoreOutOf100 = 100 := by
  have hmain : (computeScores kitchenObj hygieneObj foodObj op om mp mm).scoreOutOf100 =
      max 0 (min 100 (6 * (countYes kitchenObj hygieneObj foodObj : ℤ) +
        remarkScoreSpec (str "No issues observed") op om +
        remarkScoreSpec (str "No maintenance required") mp mm)) := by
    rw [computeScores_scoreOutOf100,
      foldl_yes_count (lookupAns kitchenObj hygieneObj foodObj) allParams 0 hans,
      getObservationScore_spec op hop om, getMaintenanceScore_spec mp hmp mm]
    simp only [countYes, POINTS_PER_CHECK]
    ring_nf
  refine ⟨hmain, ⟨?_, ?_⟩, by decide, by decide⟩
  · rw [hmain]; exact le_max_left 0 _
  · rw [hmain]
    exact max_le (by norm_num) (le_trans (min_le_left 100 _) le_rfl)

/-- Witness for C1 at a concrete all-"Yes", both-sentinels input. -/
theorem C1_unit_audit_score_witness :
    0 ≤ (computeScores (ansConst "Yes") (ansConst "Yes") (ansConst "Yes")
      (str "No issues observed") [] (str "No maintenance required") []).scoreOutOf100 ∧
    (computeScores (ansConst "Yes") (ansConst "Yes") (ansConst "Yes")
      (str "No issues observed") [] (str "No maintenance required") []).scoreOutOf100 ≤ 100 :=
  (C1_unit_audit_score (ansConst "Yes") (ansConst "Yes") (ansConst "Yes")
    (str "No issues observed") [] (str "No maintenance required") []
    (by decide) (by decide) (by decide)).2.1

/-! ## Claim C2: staff-evaluation score -/

/-- The example ratings of the claim: Excellent, Excellent, Good, Average,
Poor across the five parameters in order. -/
def exRatings : Str → Option Str := fun p =>
  if p = str "Attendance / Punctuality" then some (str "Excellent")
  else if p = str "Work Discipline" then some (str "Excellent")
  else if p = str "Food Taste / Quality" then some (str "Good")
  else if p = str "Hygiene & Grooming" then some (str "Average")
  else if p = str "Teamwork / Attitude" then some (str "Poor")
  else none

lemma fdiv_eq_floor_half_add (s : ℤ) (n : ℕ) (hn : 0 < n) :
    Int.fdiv (2 * s + n) (2 * n) = ⌊(s : ℚ) / (n : ℚ) + 1 / 2⌋ := by
  have hnQ : ((n : ℚ)) ≠ 0 := by positivity
  have hmean : (s : ℚ) / (n : ℚ) + 1 / 2 = ((2 * s + (n : ℤ) : ℤ) : ℚ) / ((2 * n : ℕ) : ℚ) := by
    push_cast
    field_simp
    ring
  rw [hmean, Rat.floor_intCast_div_natCast, Int.fdiv_eq_ediv]
  · norm_num
  · positivity

/-- Claim C2: with at least one of the 5 parameters answered, the staff score
engine returns the round-to-nearest-integer of the arithmetic mean of the
answered parameters' values under `{Excellent: 100, Good: 80, Average: 60,
Poor: 40}`; the grade thresholds are `≥90 → A`, `≥75 → B`, `≥60 → C`, else
`D`; the example `{Excellent, Excellent, Good, Average, Poor}` yields score 76
and grade `B`; with zero answered parameters the engine yields `none`. -/
theorem C2_staff_score_engine (ratings : Str → Option Str)
    (h : answeredVals ratings ≠ []) :
    computeStaffScore ratings =
      some ⌊((answeredVals ratings).sum : ℚ) / ((answeredVals ratings).length : ℚ) + 1 / 2⌋ ∧
    (RATING_VALUE (str "Excellent") = some 100 ∧ RATING_VALUE (str "Good") = some 80 ∧
      RATING_VALUE (str "Average") = some 60 ∧ RATING_VALUE (str "Poor") = some 40 ∧
      ∀ r : Str, r ∉ [str "Excellent", str "Good", str "Average", str "Poor"] →
        RATING_VALUE r = none) ∧
    (∀ n : ℤ, (90 ≤ n → scoreToGrade n = str "A") ∧
      (75 ≤ n → n < 90 → scoreToGrade n = str "B") ∧
      (60 ≤ n → n < 75 → scoreToGrade n = str "C") ∧
      (n < 60 → scoreToGrade n = str "D")) ∧
    (computeStaffScore exRatings = some 76 ∧ scoreToGrade 76 = str "B") ∧
    (∀ rs : Str → Option Str, answeredVals rs = [] → computeStaffScore rs = none) := by
  refine ⟨?_, ⟨by decide, by decide, by decide, by decide, ?_⟩, ?_, ⟨by decide, by decide⟩, ?_⟩
  · have hlen : 0 < (answeredVals ratings).length := List.length_pos.mpr h
    have hne : (answeredVals ratings).isEmpty = false := by
      rw [List.isEmpty_eq_false_iff_exists_mem]
      exact ⟨_, (List.exists_mem_of_ne_nil _ h).choose_spec⟩
    unfold computeStaffScore
    simp only [hne, Bool.false_eq_true, if_false]
    rw [fdiv_eq_floor_half_add _ _ hlen]
  · intro r hr
    unfold RATING_VALUE
    split_ifs with h1 h2 h3 h4 <;> simp_all
  · intro n
    refine ⟨fun h90 => ?_, fun h75 h90 => ?_, fun h60 h75 => ?_, fun h60 => ?_⟩ <;>
      (unfold scoreToGrade; split_ifs <;> first | rfl | omega)
  · intro rs hrs
    unfold computeStaffScore
    rw [hrs]
    rfl

/-- Witness for C2 at the claim's example ratings. -/
theorem C2_staff_score_engine_witness :
    computeStaffScore exRatings =
      some ⌊((answeredVals exRatings).sum : ℚ) / ((answeredVals exRatings).length : ℚ) + 1 / 2⌋ :=
  (C2_staff_score_engine exRatings (by decide)).1

/-! ## Claim C3: uniqueness enforcement -/

lemma leadsWith_append (n post : Str) : leadsWith n (n ++ post) = true := by
  induction n with
  | nil => rfl
  | cons a t ih => simp [leadsWith, ih]

lemma containsSub_of_leadsWith (n h : Str) (hl : leadsWith n h = true) :
    containsSub n h = true := by
  cases h with
  | nil => simpa [containsSub] using hl
  | cons c t => simp [containsSub, hl]

lemma containsSub_append_mid (pre n post : Str) : containsSub n (pre ++ (n ++ post)) = true := by
  induction pre with
  | nil => exact containsSub_of_leadsWith n (n ++ post) (leadsWith_append n post)
  | cons a t ih => simp [containsSub, ih]

lemma containsSub_append_left (n : Str) (a : Str) {h : Str}
    (hc : containsSub n h = true) : containsSub n (a ++ h) = true := by
  induction a with
  | nil => simpa using hc
  | cons x t ih => simp [containsSub, ih]

/-- A sample stored unit audit. -/
def urec0 : UnitAuditRec :=
  { branch := str "Koramangala", city := str "Bengaluru",
    auditor := str "Kumar Kannaiyan", date := str "01/06/2024", scoreOutOf100 := 90 }

/-- A sample stored staff evaluation. -/
def sdoc0 : SEDoc :=
  { id := some (str "a1"), empCode := str "E1", staffName := str "Asha",
    scoreOutOf100 := some 90, totalMarks := none, total := none,
    timestampSeconds := none, createdAtSeconds := some 1,
    selBranch := str "Koramangala", selCity := str "Bengaluru",
    branch := [], city := [],
    selDate := some (str "01/06/2024"), date := none, ratings := [] }

/-- Claim C3: a unit-audit submission for a `(branch, date)` pair that already
has a record is rejected with a conflict message naming the branch and the
date, and the store is left unchanged; likewise a staff-evaluation submission
for an already-evaluated `(empCode, selection.date)` pair is rejected without
writing. -/
theorem C3_uniqueness_conflicts
    (ustore : List UnitAuditRec) (upay : UnitAuditRec) (u : UnitAuditRec)
    (hu : u ∈ ustore) (hub : u.branch = upay.branch) (hud : u.date = upay.date)
    (sstore : List SEDoc) (spay : SEDoc) (formEmpCode dateDD : Str)
    (s : SEDoc) (hs : s ∈ sstore) (hse : s.empCode = jsTrim formEmpCode)
    (hsd : s.selDate = some dateDD) (hdne : dateDD ≠ []) :
    (unitHandleSubmit none ustore upay).1 =
      .conflict (unitConflictAlert upay.branch upay.date) ∧
    (unitHandleSubmit none ustore upay).2 = ustore ∧
    containsSub upay.branch (unitConflictAlert upay.branch upay.date) = true ∧
    containsSub upay.date (unitConflictAlert upay.branch upay.date) = true ∧
    (staffHandleSubmit none sstore formEmpCode dateDD spay).1 =
      .duplicate (staffConflictAlert (jsTrim formEmpCode) dateDD) ∧
    (staffHandleSubmit none sstore formEmpCode dateDD spay).2 = sstore := by
  have humem : u ∈ ustore.filter
      (fun r => decide (r.branch = upay.branch ∧ r.date = upay.date)) :=
    List.mem_filter.mpr ⟨hu, by simp [hub, hud]⟩
  have husnap : (ustore.filter
      (fun r => decide (r.branch = upay.branch ∧ r.date = upay.date))).isEmpty = false := by
    rw [List.isEmpty_eq_false_iff_exists_mem]
    exact ⟨u, humem⟩
  have hsmem : s ∈ sstore.filter
      (fun r => decide (r.empCode = jsTrim formEmpCode ∧ r.selDate = some dateDD)) :=
    List.mem_filter.mpr ⟨hs, by simp [hse, hsd]⟩
  have hfne : sstore.filter
      (fun r => decide (r.empCode = jsTrim formEmpCode ∧ r.selDate = some dateDD)) ≠ [] := by
    intro hnil
    rw [hnil] at hsmem
    exact (List.not_mem_nil s) hsmem
  have hssnap : ((sstore.filter
      (fun r => decide (r.empCode = jsTrim formEmpCode ∧ r.selDate = some dateDD))).take 1).isEmpty
        = false := by
    obtain ⟨x, xs, hxs⟩ := List.exists_cons_of_ne_nil hfne
    rw [hxs]
    rfl
  have hdm : dateDD.isEmpty = false := by
    rcases dateDD with _ | _
    · exact absurd rfl hdne
    · rfl
  have hdup : checkDuplicateForDate none sstore (jsTrim formEmpCode) dateDD = true := by
    unfold checkDuplicateForDate
    rw [hssnap]
    rfl
  refine ⟨?_, ?_, ?_, ?_, ?_, ?_⟩
  · unfold unitHandleSubmit
    simp only [husnap, Bool.not_false, if_true]
  · unfold unitHandleSubmit
    simp only [husnap, Bool.not_false, if_true]
  · unfold unitConflictAlert
    simp only [List.append_assoc]
    exact containsSub_append_left _ _
      (containsSub_of_leadsWith _ _ (leadsWith_append _ _))
  · unfold unitConflictAlert
    simp only [List.append_assoc]
    exact containsSub_append_left _ _
      (containsSub_append_left _ _
        (containsSub_append_left _ _
          (containsSub_of_leadsWith _ _ (leadsWith_append _ _))))
  · unfold staffHandleSubmit
    simp only [hdm, Bool.false_eq_true, if_false, hdup, if_true]
  · unfold staffHandleSubmit
    simp only [hdm, Bool.false_eq_true, if_false, hdup, if_true]

/-- Witness for C3: a duplicate `(Koramangala, 01/06/2024)` unit audit and a
duplicate `(E1, 01/06/2024)` staff evaluation both leave the store unchanged. -/
theorem C3_uniqueness_conflicts_witness :
    (unitHandleSubmit none [urec0] urec0).2 = [urec0] ∧
    (staffHandleSubmit none [sdoc0] (str "E1") (str "01/06/2024") sdoc0).2 = [sdoc0] :=
  ⟨(C3_uniqueness_conflicts [urec0] urec0 urec0 (by decide) rfl rfl
      [sdoc0] sdoc0 (str "E1") (str "01/06/2024") sdoc0 (by decide) (by decide) (by decide)
      (by decide)).2.1,
    (C3_uniqueness_conflicts [urec0] urec0 urec0 (by decide) rfl rfl
      [sdoc0] sdoc0 (str "E1") (str "01/06/2024") sdoc0 (by decide) (by decide) (by decide)
      (by decide)).2.2.2.2.2⟩

/-! ## Claim C7: deduplication before aggregation -/

/-- The contents of the `seen` id set after `dedupeById`'s loop has processed
a list. -/
def seenAfter (stringify : SEDoc → Str) (seen : List Str) : List SEDoc → List Str
  | [] => seen
  | x :: xs =>
    if docId stringify x ∈ seen then seenAfter stringify seen xs
    else seenAfter stringify (docId stringify x :: seen) xs

lemma dedupeAux_append (stringify : SEDoc → Str) :
    ∀ (l m : List SEDoc) (seen : List Str),
      dedupeAux stringify seen (l ++ m) =
        dedupeAux stringify seen l ++ dedupeAux stringify (seenAfter stringify seen l) m
  | [], m, seen => rfl
  | x :: xs, m, seen => by
    have hL : dedupeAux stringify seen (x :: (xs ++ m)) =
        if docId stringify x ∈ seen then dedupeAux stringify seen (xs ++ m)
        else x :: dedupeAux stringify (docId stringify x :: seen) (xs ++ m) := rfl
    have hR : dedupeAux stringify seen (x :: xs) =
        if docId stringify x ∈ seen then dedupeAux stringify seen xs
        else x :: dedupeAux stringify (docId stringify x :: seen) xs := rfl
    have hS : seenAfter stringify seen (x :: xs) =
        if docId stringify x ∈ seen then seenAfter stringify seen xs
        else seenAfter stringify (docId stringify x :: seen) xs := rfl
    rw [List.cons_append, hL, hR, hS]
    by_cases hx : docId stringify x ∈ seen
    · rw [if_pos hx, if_pos hx, if_pos hx]
      exact dedupeAux_append stringify xs m seen
    · rw [if_neg hx, if_neg hx, if_neg hx,
        dedupeAux_append stringify xs m (docId stringify x :: seen)]
      simp

lemma mem_seenAfter_of_mem (stringify : SEDoc → Str) :
    ∀ (l : List SEDoc) (seen : List Str) (i : Str), i ∈ seen →
      i ∈ seenAfter stringify seen l
  | [], _, _, h => h
  | x :: xs, seen, i, h => by
    by_cases hx : docId stringify x ∈ seen
    · simp only [seenAfter, hx, if_true]
      exact mem_seenAfter_of_mem stringify xs seen i h
    · simp only [seenAfter, hx, if_false]
      exact mem_seenAfter_of_mem stringify xs _ i (List.mem_cons_of_mem _ h)

lemma docId_mem_seenAfter (stringify : SEDoc → Str) :
    ∀ (l : List SEDoc) (seen : List Str) (x : SEDoc), x ∈ l →
      docId stringify x ∈ seenAfter stringify seen l
  | [], _, _, h => absurd h (List.not_mem_nil _)
  | y :: ys, seen, x, h => by
    rcases List.mem_cons.mp h with rfl | hmem
    · by_cases hy : docId stringify x ∈ seen
      · simp only [seenAfter, hy, if_true]
        exact mem_seenAfter_of_mem stringify ys seen _ hy
      · simp only [seenAfter, hy, if_false]
        exact mem_seenAfter_of_mem stringify ys _ _ (List.mem_cons_self _ _)
    · by_cases hy : docId stringify y ∈ seen
      · simp only [seenAfter, hy, if_true]
        exact docId_mem_seenAfter stringify ys seen x hmem
      · simp only [seenAfter, hy, if_false]
        exact docId_mem_seenAfter stringify ys _ x hmem

lemma dedupeAux_cons_of_seen (stringify : SEDoc → Str) (seen : List Str) (b : SEDoc)
    (r : List SEDoc) (hb : docId stringify b ∈ seen) :
    dedupeAux stringify seen (b :: r) = dedupeAux stringify seen r := by
  simp only [dedupeAux, hb, if_true]

lemma dedupeAux_self (stringify : SEDoc → Str) :
    ∀ (l : List SEDoc) (seen : List Str),
      dedupeAux stringify seen (dedupeAux stringify seen l) = dedupeAux stringify seen l
  | [], seen => rfl
  | x :: xs, seen => by
    have hR : dedupeAux stringify seen (x :: xs) =
        if docId stringify x ∈ seen then dedupeAux stringify seen xs
        else x :: dedupeAux stringify (docId stringify x :: seen) xs := rfl
    rw [hR]
    by_cases hx : docId stringify x ∈ seen
    · rw [if_pos hx]
      exact dedupeAux_self stringify xs seen
    · rw [if_neg hx]
      have hL : dedupeAux stringify seen
          (x :: dedupeAux stringify (docId stringify x :: seen) xs) =
          if docId stringify x ∈ seen then
            dedupeAux stringify seen (dedupeAux stringify (docId stringify x :: seen) xs)
          else x :: dedupeAux stringify (docId stringify x :: seen)
            (dedupeAux stringify (docId stringify x :: seen) xs) := rfl
      rw [hL, if_neg hx, dedupeAux_self stringify xs (docId stringify x :: seen)]

/-- Claim C7: deduplication is by the stable record id: a list carrying the
same record id twice aggregates exactly as the list with the duplicate
removed (both for the employee aggregation and the parameter statistics), and
`dedupeById` is idempotent. -/
theorem C7_dedupe_idempotent (stringify : SEDoc → Str) (l1 l2 l3 : List SEDoc) (a b : SEDoc)
    (hid : docId stringify b = docId stringify a) :
    dedupeById stringify (l1 ++ a :: l2 ++ b :: l3) =
      dedupeById stringify (l1 ++ a :: l2 ++ l3) ∧
    employeesAggregated (dedupeById stringify (l1 ++ a :: l2 ++ b :: l3)) =
      employeesAggregated (dedupeById stringify (l1 ++ a :: l2 ++ l3)) ∧
    computeParameterStats (dedupeById stringify (l1 ++ a :: l2 ++ b :: l3)) =
      computeParameterStats (dedupeById stringify (l1 ++ a :: l2 ++ l3)) ∧
    ∀ xs : List SEDoc, dedupeById stringify (dedupeById stringify xs) = dedupeById stringify xs := by
  have e1 : dedupeById stringify (l1 ++ a :: l2 ++ b :: l3) =
      dedupeAux stringify [] (l1 ++ a :: l2) ++
        dedupeAux stringify (seenAfter stringify [] (l1 ++ a :: l2)) (b :: l3) := by
    unfold dedupeById
    rw [(by simp : l1 ++ a :: l2 ++ b :: l3 = (l1 ++ a :: l2) ++ (b :: l3))]
    exact dedupeAux_append stringify (l1 ++ a :: l2) (b :: l3) []
  have e2 : dedupeById stringify (l1 ++ a :: l2 ++ l3) =
      dedupeAux stringify [] (l1 ++ a :: l2) ++
        dedupeAux stringify (seenAfter stringify [] (l1 ++ a :: l2)) l3 := by
    unfold dedupeById
    rw [(by simp : l1 ++ a :: l2 ++ l3 = (l1 ++ a :: l2) ++ l3)]
    exact dedupeAux_append stringify (l1 ++ a :: l2) l3 []
  have hmain : dedupeById stringify (l1 ++ a :: l2 ++ b :: l3) =
      dedupeById stringify (l1 ++ a :: l2 ++ l3) := by
    rw [e1, e2]
    congr 1
    rw [dedupeAux_cons_of_seen]
    rw [hid]
    exact docId_mem_seenAfter stringify (l1 ++ a :: l2) [] a
      (List.mem_append.mpr (Or.inr (List.mem_cons_self _ _)))
  exact ⟨hmain, by rw [hmain], by rw [hmain], fun xs => dedupeAux_self stringify xs []⟩

/-- Witness for C7: a two-copy list of the sample document dedupes to the
same store as the one-copy list. -/
theorem C7_dedupe_idempotent_witness :
    dedupeById (fun _ => []) ([] ++ sdoc0 :: [] ++ sdoc0 :: []) =
      dedupeById (fun _ => []) ([] ++ sdoc0 :: [] ++ []) :=
  (C7_dedupe_idempotent (fun _ => []) [] [] [] sdoc0 sdoc0 rfl).1

/-! ## Claim C9: behaviour on a failing duplicate-check query -/

/-- Counterexample to claim C9: when the duplicate-check query fails, the
guard reports `false` ("no conflict") and the staff-evaluation write
proceeds — the store grows even though a conflicting record for the same
`(empCode, date)` is already present, so the submission is not abandoned. -/
theorem C9_counterexample :
    checkDuplicateForDate (some (str "network error")) [sdoc0] (str "E1")
      (str "01/06/2024") = false ∧
    (staffHandleSubmit (some (str "network error")) [sdoc0] (str "E1") (str "01/06/2024")
      sdoc0).1 = .saved ∧
    (staffHandleSubmit (some (str "network error")) [sdoc0] (str "E1") (str "01/06/2024")
      sdoc0).2 ≠ [sdoc0] := by
  refine ⟨rfl, rfl, fun h => ?_⟩
  have hlen := congrArg List.length h
  simp [staffHandleSubmit, checkDuplicateForDate] at hlen
  rw [if_neg (by decide : ¬(str "01/06/2024" = []))] at hlen
  simp at hlen

/-- Claim C9 as amended: on a store error the staff-evaluation duplicate guard
swallows the exception and reports "no conflict", and the write proceeds,
appending the payload; only the unit-audit flow abandons the attempt (its
query error is caught after the write was skipped, leaving the store
unchanged). -/
theorem C9_store_error_amended (e : Str) (store : List SEDoc) (emp dateDD : Str)
    (pay : SEDoc) (ustore : List UnitAuditRec) (upay : UnitAuditRec)
    (hd : dateDD ≠ []) :
    checkDuplicateForDate (some e) store emp dateDD = false ∧
    (staffHandleSubmit (some e) store emp dateDD pay).1 = .saved ∧
    (staffHandleSubmit (some e) store emp dateDD pay).2 = store ++ [pay] ∧
    unitHandleSubmit (some e) ustore upay = (.storeError e, ustore) := by
  have hdm : dateDD.isEmpty = false := by
    rcases dateDD with _ | _
    · exact absurd rfl hd
    · rfl
  have hfalse : checkDuplicateForDate (some e) store (jsTrim emp) dateDD = false := rfl
  refine ⟨rfl, ?_, ?_, rfl⟩ <;>
    (unfold staffHandleSubmit;
      simp only [hdm, Bool.false_eq_true, if_false, hfalse])

/-- Witness for the amended C9 at a concrete failing query. -/
theorem C9_store_error_amended_witness :
    (staffHandleSubmit (some (str "network error")) [sdoc0] (str "E1") (str "01/06/2024")
      sdoc0).2 = [sdoc0] ++ [sdoc0] :=
  (C9_store_error_amended (str "network error") [sdoc0] (str "E1") (str "01/06/2024")
    sdoc0 [] urec0 (by decide)).2.2.1

/-! ## Claim C10: unparseable dates are excluded from range-filtered results -/

/-- A staff evaluation whose stored date does not parse as a calendar date. -/
def sdocBad : SEDoc :=
  { id := some (str "a2"), empCode := str "E2", staffName := str "Ravi",
    scoreOutOf100 := some 80, totalMarks := none, total := none,
    timestampSeconds := none, createdAtSeconds := some 2,
    selBranch := str "Koramangala", selCity := str "Bengaluru",
    branch := [], city := [],
    selDate := some (str "not a date"), date := none, ratings := [] }

/-- Claim C10: whenever a record's stored date string does not parse,
`withinRange` is `false` — for any bounds, including absent ones — so the
record never survives the client-side range filter (and hence never reaches
the aggregates computed from the filtered list). -/
theorem C10_unparseable_excluded (g : Str → Option ℤ) (fromISO toISO : Str)
    (docs : List SEDoc) (r : SEDoc)
    (hparse : parseDDMMYYYYtoDate g (rDateOf r) = none) :
    withinRange g (rDateOf r) fromISO toISO = false ∧
    r ∉ filterStaffRange g docs fromISO toISO ∧
    (∀ s : Str, parseDDMMYYYYtoDate g s = none → withinRange g s fromISO toISO = false) := by
  have hall : ∀ s : Str, parseDDMMYYYYtoDate g s = none →
      withinRange g s fromISO toISO = false := by
    intro s hs
    unfold withinRange
    rw [hs]
  refine ⟨hall _ hparse, fun hmem => ?_, hall⟩
  have hp := (List.mem_filter.mp hmem).2
  rw [hall _ hparse] at hp
  exact Bool.false_ne_true hp

/-- Witness for C10 at a record dated "not a date" with empty bounds. -/
theorem C10_unparseable_excluded_witness :
    withinRange gNone (rDateOf sdocBad) [] [] = false :=
  (C10_unparseable_excluded gNone [] [] [sdocBad] sdocBad (by decide)).1

/-! ## Claim C6: per-employee aggregation -/

/-- Claim C6: records sharing a grouping key — the case-insensitively
normalized `empCode` (with `staffName` as fallback) — aggregate into a single
row; for two such records the row has `count = 2`, `avg` the mean of their two
numeric scores and the label derived from that mean; and the label thresholds
are `≥90 Excellent, ≥75 Good, ≥60 Average, else Poor`. -/
theorem C6_employee_grouping (r1 r2 : SEDoc) (q1 q2 : ℚ)
    (hkey : recKey r2 = recKey r1) (hc1 : (recCode r1).isEmpty = false)
    (hs1 : scoreValOf r1 = some q1) (hs2 : scoreValOf r2 = some q2) :
    employeesAggregated [r1, r2] = [mkRow [r1, r2]] ∧
    (mkRow [r1, r2]).count = 2 ∧
    (mkRow [r1, r2]).avg = some ((q1 + q2) / 2) ∧
    (mkRow [r1, r2]).label = avgScoreToLabel ((q1 + q2) / 2) ∧
    recKey r1 = jsToLower (recCode r1) ∧
    (∀ a : ℚ, (90 ≤ a → avgScoreToLabel a = str "Excellent") ∧
      (75 ≤ a → a < 90 → avgScoreToLabel a = str "Good") ∧
      (60 ≤ a → a < 75 → avgScoreToLabel a = str "Average") ∧
      (a < 60 → avgScoreToLabel a = str "Poor")) := by
  have hkeys : keysInOrder [r1, r2] = [recKey r1] := by
    simp [keysInOrder, hkey]
  have hgrp : groupOf [r1, r2] (recKey r1) = [r1, r2] := by
    simp [groupOf, hkey]
  have hns : ([r1, r2] : List SEDoc).filterMap scoreValOf = [q1, q2] := by
    simp [hs1, hs2]
  have havg : (mkRow [r1, r2]).avg = some ((q1 + q2) / 2) := by
    simp only [mkRow, hns]
    norm_num
  refine ⟨?_, rfl, havg, ?_, ?_, ?_⟩
  · unfold employeesAggregated
    rw [hkeys, List.map_singleton, hgrp]
    simp
  · simp only [mkRow, hns]
    norm_num
  · unfold recKey
    rw [hc1]
    simp
  · intro a
    refine ⟨fun h90 => ?_, fun h75 h90 => ?_, fun h60 h75 => ?_, fun h60 => ?_⟩ <;>
      (unfold avgScoreToLabel; split_ifs <;> first | rfl | (exfalso; linarith))

/-- Two sample evaluations of the same employee with different name casing. -/
def sdocA : SEDoc :=
  { id := some (str "b1"), empCode := str "E9", staffName := str "Maya K",
    scoreOutOf100 := some 80, totalMarks := none, total := none,
    timestampSeconds := none, createdAtSeconds := some 5,
    selBranch := str "Koramangala", selCity := str "Bengaluru",
    branch := [], city := [],
    selDate := some (str "01/06/2024"), date := none, ratings := [] }

/-- Second evaluation of the same employee, name cased differently. -/
def sdocB : SEDoc :=
  { id := some (str "b2"), empCode := str "E9", staffName := str "MAYA K",
    scoreOutOf100 := some 90, totalMarks := none, total := none,
    timestampSeconds := none, createdAtSeconds := some 6,
    selBranch := str "Koramangala", selCity := str "Bengaluru",
    branch := [], city := [],
    selDate := some (str "02/06/2024"), date := none, ratings := [] }

/-- Witness for C6 on the two same-code records: one row, `count = 2`,
`avg = 85`. -/
theorem C6_employee_grouping_witness :
    employeesAggregated [sdocA, sdocB] = [mkRow [sdocA, sdocB]] ∧
    (mkRow [sdocA, sdocB]).count = 2 ∧
    (mkRow [sdocA, sdocB]).avg = some ((80 + 90) / 2) := by
  have h := C6_employee_grouping sdocA sdocB 80 90 (by decide) (by decide)
    (by norm_num [scoreValOf, sdocA]) (by norm_num [scoreValOf, sdocB])
  exact ⟨h.1, h.2.1, h.2.2.1⟩

/-! ## Claim C5: the range filter compares by local calendar day -/

lemma jsSetHoursStart_mul (a : ℤ) : jsSetHoursStart (a * msPerDay) = a * msPerDay := by
  unfold jsSetHoursStart
  rw [Int.mul_fdiv_cancel a (by norm_num [msPerDay])]

lemma jsSetHoursEnd_mul (a : ℤ) : jsSetHoursEnd (a * msPerDay) = a * msPerDay + (msPerDay - 1) := by
  unfold jsSetHoursEnd
  rw [Int.mul_fdiv_cancel a (by norm_num [msPerDay])]

lemma jsMakeDate_eq (Y M D : ℤ) (hM : 1 ≤ M ∧ M ≤ 12) (hY : 100 ≤ Y) :
    jsMakeDate Y (M - 1) D = daysFromCivil Y M D * msPerDay := by
  have h1 : Int.fdiv (M - 1) 12 = 0 := by
    rw [Int.fdiv_eq_ediv _ (by norm_num)]
    exact Int.ediv_eq_zero_of_lt (by omega) (by omega)
  have h2 : Int.emod (M - 1) 12 = M - 1 := Int.emod_eq_of_lt (by omega) (by omega)
  unfold jsMakeDate
  rw [if_neg (by omega), h1, h2]
  simp only [add_zero, sub_add_cancel]

lemma nonEmpty_of_three_parts {sep : Char} {s : Str} {p1 p2 p3 : Str}
    (h : jsSplitOn sep s = [p1, p2, p3]) : s.isEmpty = false := by
  rcases s with _ | _
  · simp [jsSplitOn] at h
  · rfl

lemma parse_of_parts (g : Str → Option ℤ) (s dS mS yS : Str) (D M Y : ℤ)
    (hsplit : jsSplitOn '/' s = [dS, mS, yS])
    (hD : jsNumber dS = some D) (hM : jsNumber mS = some M) (hY : jsNumber yS = some Y) :
    parseDDMMYYYYtoDate g s = some (jsMakeDate Y (M - 1) D) := by
  unfold parseDDMMYYYYtoDate
  rw [nonEmpty_of_three_parts hsplit]
  simp only [Bool.false_eq_true, if_false, hsplit, hD, hM, hY]

lemma iso_of_parts (g : Str → Option ℤ) (s yS mS dS : Str) (Y M D : ℤ)
    (hsplit : jsSplitOn '-' s = [yS, mS, dS])
    (hY : jsNumber yS = some Y) (hM : jsNumber mS = some M) (hD : jsNumber dS = some D) :
    isoToLocalDate g s = some (jsMakeDate Y (M - 1) D) := by
  unfold isoToLocalDate
  rw [nonEmpty_of_three_parts hsplit]
  simp only [Bool.false_eq_true, if_false, hsplit, hY, hM, hD]

lemma withinRange_days (g : Str → Option ℤ) (dateDD fromISO toISO : Str) (R F T : ℤ)
    (hp : parseDDMMYYYYtoDate g dateDD = some (R * msPerDay))
    (hfne : fromISO.isEmpty = false) (htne : toISO.isEmpty = false)
    (hf : isoToLocalDate g fromISO = some (F * msPerDay))
    (ht : isoToLocalDate g toISO = some (T * msPerDay)) :
    withinRange g dateDD fromISO toISO = (decide (F ≤ R) && decide (R ≤ T)) := by
  unfold withinRange
  simp only [hp, hfne, htne, hf, ht, Bool.false_and, Bool.false_eq_true, if_false,
    Option.map_some', jsSetHoursStart_mul, jsSetHoursEnd_mul]
  have hms : msPerDay = 86400000 := rfl
  rw [hms]
  split_ifs with h1 h2 <;> simp_all <;> omega

lemma withinRange_days_noFrom (g : Str → Option ℤ) (dateDD toISO : Str) (R T : ℤ)
    (hp : parseDDMMYYYYtoDate g dateDD = some (R * msPerDay))
    (htne : toISO.isEmpty = false)
    (ht : isoToLocalDate g toISO = some (T * msPerDay)) :
    withinRange g dateDD [] toISO = decide (R ≤ T) := by
  unfold withinRange
  simp only [hp, htne, ht, List.isEmpty_nil, Bool.true_and, Bool.false_eq_true, if_false,
    Option.map_some', jsSetHoursEnd_mul]
  have hms : msPerDay = 86400000 := rfl
  rw [hms]
  split_ifs with h1 <;> simp_all <;> omega

lemma withinRange_days_noTo (g : Str → Option ℤ) (dateDD fromISO : Str) (R F : ℤ)
    (hp : parseDDMMYYYYtoDate g dateDD = some (R * msPerDay))
    (hfne : fromISO.isEmpty = false)
    (hf : isoToLocalDate g fromISO = some (F * msPerDay)) :
    withinRange g dateDD fromISO [] = decide (F ≤ R) := by
  unfold withinRange
  simp only [hp, hfne, hf, List.isEmpty_nil, Bool.and_true, Bool.false_eq_true, if_false,
    Option.map_some', jsSetHoursStart_mul]
  have hms : msPerDay = 86400000 := rfl
  rw [hms]
  split_ifs with h1 <;> simp_all

/-- Claim C5: the range filter includes a `DD/MM/YYYY` record exactly when its
local calendar day lies within the `[from, to]` ISO bounds inclusive, treating
an absent bound as open on that side; in particular `15/03/2024` is included in
`[2024-03-01, 2024-03-31]` (also when it equals either bound) and excluded
from `[2024-04-01, 2024-04-30]`. -/
theorem C5_range_filter (g : Str → Option ℤ)
    (dateDD fromISO toISO dS mS yS fyS fmS fdS tyS tmS tdS : Str)
    (D M Y fD fM fY tD tM tY : ℤ)
    (hdsplit : jsSplitOn '/' dateDD = [dS, mS, yS])
    (hD : jsNumber dS = some D) (hM : jsNumber mS = some M) (hY : jsNumber yS = some Y)
    (hfsplit : jsSplitOn '-' fromISO = [fyS, fmS, fdS])
    (hfY : jsNumber fyS = some fY) (hfM : jsNumber fmS = some fM)
    (hfD : jsNumber fdS = some fD)
    (htsplit : jsSplitOn '-' toISO = [tyS, tmS, tdS])
    (htY : jsNumber tyS = some tY) (htM : jsNumber tmS = some tM)
    (htD : jsNumber tdS = some tD)
    (hMr : 1 ≤ M ∧ M ≤ 12) (hYr : 100 ≤ Y)
    (hfMr : 1 ≤ fM ∧ fM ≤ 12) (hfYr : 100 ≤ fY)
    (htMr : 1 ≤ tM ∧ tM ≤ 12) (htYr : 100 ≤ tY) :
    (withinRange g dateDD fromISO toISO = true ↔
      daysFromCivil fY fM fD ≤ daysFromCivil Y M D ∧
        daysFromCivil Y M D ≤ daysFromCivil tY tM tD) ∧
    (withinRange g dateDD [] toISO = true ↔
      daysFromCivil Y M D ≤ daysFromCivil tY tM tD) ∧
    (withinRange g dateDD fromISO [] = true ↔
      daysFromCivil fY fM fD ≤ daysFromCivil Y M D) ∧
    withinRange g dateDD [] [] = true ∧
    (withinRange gNone (str "15/03/2024") (str "2024-03-01") (str "2024-03-31") = true ∧
      withinRange gNone (str "15/03/2024") (str "2024-03-15") (str "2024-03-31") = true ∧
      withinRange gNone (str "15/03/2024") (str "2024-03-01") (str "2024-03-15") = true ∧
      withinRange gNone (str "15/03/2024") (str "2024-04-01") (str "2024-04-30") = false) := by
  have hp : parseDDMMYYYYtoDate g dateDD = some (daysFromCivil Y M D * msPerDay) := by
    rw [parse_of_parts g dateDD dS mS yS D M Y hdsplit hD hM hY, jsMakeDate_eq Y M D hMr hYr]
  have hf : isoToLocalDate g fromISO = some (daysFromCivil fY fM fD * msPerDay) := by
    rw [iso_of_parts g fromISO fyS fmS fdS fY fM fD hfsplit hfY hfM hfD,
      jsMakeDate_eq fY fM fD hfMr hfYr]
  have ht : isoToLocalDate g toISO = some (daysFromCivil tY tM tD * msPerDay) := by
    rw [iso_of_parts g toISO tyS tmS tdS tY tM tD htsplit htY htM htD,
      jsMakeDate_eq tY tM tD htMr htYr]
  have hfne : fromISO.isEmpty = false := nonEmpty_of_three_parts hfsplit
  have htne : toISO.isEmpty = false := nonEmpty_of_three_parts htsplit
  refine ⟨?_, ?_, ?_, ?_, by decide, by decide, by decide, by decide⟩
  · rw [withinRange_days g dateDD fromISO toISO _ _ _ hp hfne htne hf ht]
    simp
  · rw [withinRange_days_noFrom g dateDD toISO _ _ hp htne ht]
    simp
  · rw [withinRange_days_noTo g dateDD fromISO _ _ hp hfne hf]
    simp
  · unfold withinRange
    simp only [hp, List.isEmpty_nil, Bool.and_self, if_true]

/-- Witness for C5 at the record `15/03/2024` and range `[2024-03-01, 2024-03-31]`. -/
theorem C5_range_filter_witness :
    withinRange gNone (str "15/03/2024") (str "2024-03-01") (str "2024-03-31") = true ↔
      daysFromCivil 2024 3 1 ≤ daysFromCivil 2024 3 15 ∧
        daysFromCivil 2024 3 15 ≤ daysFromCivil 2024 3 31 :=
  (C5_range_filter gNone (str "15/03/2024") (str "2024-03-01") (str "2024-03-31")
    (str "15") (str "03") (str "2024") (str "2024") (str "03") (str "01")
    (str "2024") (str "03") (str "31") 15 3 2024 1 3 2024 31 3 2024
    (by decide) (by decide) (by decide) (by decide) (by decide) (by decide) (by decide)
    (by decide) (by decide) (by decide) (by decide) (by decide)
    (by norm_num) (by norm_num) (by norm_num) (by norm_num) (by norm_num) (by norm_num)).1

/-! ## Claims C4 and C8: date-normalizer infrastructure -/

/-- The first character, if any, is not trim-whitespace. -/
def headOkWs (s : Str) : Prop := ∀ c, s.head? = some c → jsIsWs c = false

/-- The last character, if any, is not trim-whitespace. -/
def lastOkWs (s : Str) : Prop := ∀ c, s.getLast? = some c → jsIsWs c = false

lemma headOkWs_dropWhile (l : Str) : headOkWs (l.dropWhile jsIsWs) := by
  intro c hc
  have h := List.head?_dropWhile_not jsIsWs l
  rw [hc] at h
  exact h

lemma dropWhile_eq_self_of_headOk {l : Str} (h : headOkWs l) : l.dropWhile jsIsWs = l := by
  rcases l with _ | ⟨a, t⟩
  · rfl
  · rw [List.dropWhile_cons, if_neg]
    rw [h a rfl]
    simp

lemma jsTrim_eq_self {s : Str} (h1 : headOkWs s) (h2 : lastOkWs s) : jsTrim s = s := by
  unfold jsTrim
  rw [dropWhile_eq_self_of_headOk h1]
  have hrev : headOkWs s.reverse := by
    intro c hc
    rw [List.head?_reverse] at hc
    exact h2 c hc
  rw [dropWhile_eq_self_of_headOk hrev, List.reverse_reverse]

lemma getLast?_dropWhile (p : Char → Bool) :
    ∀ l : Str, (l.dropWhile p).getLast? = none ∨ (l.dropWhile p).getLast? = l.getLast?
  | [] => Or.inl rfl
  | a :: t => by
    rw [List.dropWhile_cons]
    by_cases hp : p a = true
    · rw [if_pos hp]
      rcases getLast?_dropWhile p t with h | h
      · exact Or.inl h
      · rcases t with _ | ⟨b, t2⟩
        · exact Or.inl rfl
        · rw [List.getLast?_cons_cons]
          exact Or.inr h
    · rw [if_neg hp]
      exact Or.inr rfl

lemma jsTrim_headOk (s : Str) : headOkWs (jsTrim s) := by
  intro c hc
  unfold jsTrim at hc
  rw [List.head?_reverse] at hc
  rcases getLast?_dropWhile jsIsWs (s.dropWhile jsIsWs).reverse with h | h
  · rw [hc] at h
    exact absurd h (by simp)
  · rw [h, List.getLast?_reverse] at hc
    exact headOkWs_dropWhile s c hc

lemma jsTrim_lastOk (s : Str) : lastOkWs (jsTrim s) := by
  intro c hc
  unfold jsTrim at hc
  rw [List.getLast?_reverse] at hc
  exact headOkWs_dropWhile _ c hc

lemma jsTrim_idem (s : Str) : jsTrim (jsTrim s) = jsTrim s :=
  jsTrim_eq_self (jsTrim_headOk s) (jsTrim_lastOk s)

lemma jsSplitOn_ne_nil (sep : Char) (s : Str) : jsSplitOn sep s ≠ [] := by
  rcases s with _ | ⟨c, cs⟩
  · simp [jsSplitOn]
  · rcases h : jsSplitOn sep cs with _ | ⟨p, ps⟩
    · simp [jsSplitOn, h]
    · simp only [jsSplitOn, h]
      split_ifs <;> simp

lemma jsSplitOn_single {sep : Char} {d : Str} (h : sep ∉ d) : jsSplitOn sep d = [d] := by
  induction d with
  | nil => rfl
  | cons c cs ih =>
    have hc : ¬(c = sep) := fun hcs => h (hcs ▸ List.mem_cons_self c cs)
    have hcs2 : sep ∉ cs := fun hm => h (List.mem_cons_of_mem c hm)
    simp only [jsSplitOn, ih hcs2, if_neg hc]

lemma jsSplitOn_cons_sep (sep : Char) (rest : Str) :
    jsSplitOn sep (sep :: rest) = [] :: jsSplitOn sep rest := by
  rcases h : jsSplitOn sep rest with _ | ⟨p, ps⟩
  · exact absurd h (jsSplitOn_ne_nil sep rest)
  · simp [jsSplitOn, h]

lemma jsSplitOn_append_sep {sep : Char} {a : Str} (rest : Str) (h : sep ∉ a) :
    jsSplitOn sep (a ++ sep :: rest) = a :: jsSplitOn sep rest := by
  induction a with
  | nil => simpa using jsSplitOn_cons_sep sep rest
  | cons c cs ih =>
    have hc : ¬(c = sep) := fun hcs => h (hcs ▸ List.mem_cons_self c cs)
    have hcs2 : sep ∉ cs := fun hm => h (List.mem_cons_of_mem c hm)
    rw [List.cons_append]
    rcases h2 : jsSplitOn sep (cs ++ sep :: rest) with _ | ⟨p, ps⟩
    · exact absurd h2 (jsSplitOn_ne_nil sep _)
    · have h3 := ih hcs2
      rw [h2] at h3
      have hp : p = cs := (List.cons.injEq _ _ _ _).mp h3 |>.1
      have hps : ps = jsSplitOn sep rest := (List.cons.injEq _ _ _ _).mp h3 |>.2
      simp only [jsSplitOn, h2, if_neg hc, hp, hps]

lemma jsSplitOn_three {sep : Char} {a b c : Str} (ha : sep ∉ a) (hb : sep ∉ b) (hc : sep ∉ c) :
    jsSplitOn sep (a ++ sep :: (b ++ sep :: c)) = [a, b, c] := by
  rw [jsSplitOn_append_sep _ ha, jsSplitOn_append_sep _ hb, jsSplitOn_single hc]

lemma jsSplitOn_no_sep (sep : Char) :
    ∀ (s : Str), ∀ p ∈ jsSplitOn sep s, sep ∉ p
  | [], p, hp => by
    simp [jsSplitOn] at hp
    subst hp
    simp
  | c :: cs, p, hp => by
    rcases h : jsSplitOn sep cs with _ | ⟨q, qs⟩
    · exact absurd h (jsSplitOn_ne_nil sep cs)
    · simp only [jsSplitOn, h] at hp
      by_cases hcs : c = sep
      · rw [if_pos hcs] at hp
        rcases List.mem_cons.mp hp with rfl | hp2
        · simp
        · exact jsSplitOn_no_sep sep cs p (h ▸ hp2)
      · rw [if_neg hcs] at hp
        rcases List.mem_cons.mp hp with rfl | hp2
        · intro hmem
          rcases List.mem_cons.mp hmem with rfl | hq
          · exact hcs rfl
          · exact jsSplitOn_no_sep sep cs q (h ▸ List.mem_cons_self q qs) hq
        · exact jsSplitOn_no_sep sep cs p (h ▸ List.mem_cons_of_mem q hp2)

/-- Joining split parts back with the separator. -/
def joinWithSep (sep : Char) : List Str → Str
  | [] => []
  | [p] => p
  | p :: ps => p ++ sep :: joinWithSep sep ps

lemma join_of_jsSplitOn (sep : Char) :
    ∀ (s : Str), s = joinWithSep sep (jsSplitOn sep s)
  | [] => rfl
  | c :: cs => by
    rcases h : jsSplitOn sep cs with _ | ⟨q, qs⟩
    · exact absurd h (jsSplitOn_ne_nil sep cs)
    · have ih := join_of_jsSplitOn sep cs
      rw [h] at ih
      by_cases hcs : c = sep
      · simp only [jsSplitOn, h]
        rw [if_pos hcs,
          show joinWithSep sep ([] :: q :: qs) = [] ++ sep :: joinWithSep sep (q :: qs) from rfl,
          List.nil_append, hcs, ih]
      · simp only [jsSplitOn, h]
        rw [if_neg hcs]
        rcases qs with _ | ⟨q2, qs2⟩
        · rw [show joinWithSep sep [c :: q] = c :: q from rfl]
          rw [show joinWithSep sep [q] = q from rfl] at ih
          rw [ih]
        · rw [show joinWithSep sep ((c :: q) :: q2 :: qs2) =
              (c :: q) ++ sep :: joinWithSep sep (q2 :: qs2) from rfl, List.cons_append]
          rw [show joinWithSep sep (q :: q2 :: qs2) =
              q ++ sep :: joinWithSep sep (q2 :: qs2) from rfl] at ih
          rw [ih]

lemma jsSplitOn_three_join {sep : Char} {s a b c : Str}
    (h : jsSplitOn sep s = [a, b, c]) : s = a ++ sep :: (b ++ sep :: c) := by
  have hj := join_of_jsSplitOn sep s
  rw [h] at hj
  simpa [joinWithSep] using hj

lemma jsPadStart2_length (s : Str) : (jsPadStart2 s).length = max 2 s.length := by
  unfold jsPadStart2
  split_ifs with h
  · omega
  · simp only [List.length_append, List.length_replicate]
    omega

lemma jsPadStart2_of_le {s : Str} (h : 2 ≤ s.length) : jsPadStart2 s = s := by
  unfold jsPadStart2
  rw [if_pos h]

lemma jsPadStart2_ne_nil (s : Str) : jsPadStart2 s ≠ [] := by
  intro h
  have hl := jsPadStart2_length s
  rw [h] at hl
  simp at hl
  omega

lemma mem_jsPadStart2 {c : Char} {s : Str} (h : c ∈ jsPadStart2 s) : c = '0' ∨ c ∈ s := by
  unfold jsPadStart2 at h
  split_ifs at h with h2
  · exact Or.inr h
  · rcases List.mem_append.mp h with h3 | h3
    · exact Or.inl (List.eq_of_mem_replicate h3)
    · exact Or.inr h3

lemma headOk_jsPadStart2 {s : Str} (h : headOkWs s) : headOkWs (jsPadStart2 s) := by
  intro c hc
  unfold jsPadStart2 at hc
  split_ifs at hc with h2
  · exact h c hc
  · rcases hrep : 2 - s.length with _ | k
    · omega
    · rw [hrep, List.replicate_succ, List.cons_append] at hc
      simp only [List.head?_cons, Option.some.injEq] at hc
      subst hc
      decide

lemma isDigitC_not_ws {c : Char} (h : isDigitC c = true) : jsIsWs c = false := by
  have hp := of_decide_eq_true h
  unfold jsIsWs
  simp only [Bool.or_eq_false_iff, decide_eq_false_iff_not]
  omega

lemma isDigitC_ne_slash {c : Char} (h : isDigitC c = true) : c ≠ '/' := by
  intro hc
  subst hc
  exact absurd h (by decide)

lemma isDigitStr_facts {s : Str} (h : isDigitStr s = true) :
    s ≠ [] ∧ ∀ c ∈ s, isDigitC c = true := by
  unfold isDigitStr at h
  rcases Bool.and_eq_true_iff.mp h with ⟨h1, h2⟩
  refine ⟨?_, ?_⟩
  · intro hnil
    subst hnil
    simp at h1
  · intro c hc
    exact List.all_eq_true.mp h2 c hc

lemma isDigitStr_pad {s : Str} (h : isDigitStr s = true) :
    isDigitStr (jsPadStart2 s) = true := by
  obtain ⟨hne, hall⟩ := isDigitStr_facts h
  unfold isDigitStr
  rw [Bool.and_eq_true_iff]
  constructor
  · have := jsPadStart2_ne_nil s
    rcases hp : jsPadStart2 s with _ | _
    · exact absurd hp this
    · rfl
  · rw [List.all_eq_true]
    intro c hc
    rcases mem_jsPadStart2 hc with rfl | hc2
    · decide
    · exact hall c hc2

lemma slashStr : str "/" = ['/'] := by decide

lemma canonical_headOk {p1 : Str} (hw1 : headOkWs (jsPadStart2 p1)) (rest : Str) :
    headOkWs (jsPadStart2 p1 ++ rest) := by
  intro c hc
  rw [List.head?_append] at hc
  rcases hh : (jsPadStart2 p1).head? with _ | c1
  · exact absurd (List.head?_eq_none_iff.mp hh) (jsPadStart2_ne_nil p1)
  · rw [hh] at hc
    have hc2 : (some c1 : Option Char) = some c := hc
    rw [← Option.some.inj hc2]
    exact hw1 c1 hh

lemma canonical_lastOk {p3 : Str} (hw3 : lastOkWs p3) (hne : p3 ≠ []) (pre : Str) :
    lastOkWs (pre ++ p3) := by
  intro c hc
  rw [List.getLast?_append] at hc
  rcases hh : p3.getLast? with _ | c3
  · exact absurd (List.getLast?_eq_none_iff.mp hh) hne
  · rw [hh] at hc
    have hc2 : (some c3 : Option Char) = some c := hc
    rw [← Option.some.inj hc2]
    exact hw3 c3 hh

/-- A zero-padded `d/m/yyyy` triple is a fixed point of `ensureDDMMYYYY`. -/
lemma ensure_fixed (g : Str → Option CalDate) (p1 p2 p3 : Str)
    (h1 : p1.length ≤ 2) (h2 : p2.length ≤ 2) (h3 : p3.length = 4)
    (n1 : '/' ∉ jsPadStart2 p1) (n2 : '/' ∉ jsPadStart2 p2) (n3 : '/' ∉ p3)
    (hw1 : headOkWs (jsPadStart2 p1)) (hw3 : lastOkWs p3) :
    ensureDDMMYYYY g (some (jsPadStart2 p1 ++ str "/" ++ jsPadStart2 p2 ++ str "/" ++ p3)) =
      jsPadStart2 p1 ++ str "/" ++ jsPadStart2 p2 ++ str "/" ++ p3 := by
  have hp3ne : p3 ≠ [] := by
    intro h
    rw [h] at h3
    simp at h3
  have hshape : jsPadStart2 p1 ++ str "/" ++ jsPadStart2 p2 ++ str "/" ++ p3 =
      jsPadStart2 p1 ++ '/' :: (jsPadStart2 p2 ++ '/' :: p3) := by
    simp [slashStr]
  have htrim : jsTrim (jsPadStart2 p1 ++ str "/" ++ jsPadStart2 p2 ++ str "/" ++ p3) =
      jsPadStart2 p1 ++ str "/" ++ jsPadStart2 p2 ++ str "/" ++ p3 := by
    apply jsTrim_eq_self
    · rw [hshape]
      exact canonical_headOk hw1 _
    · rw [hshape,
        show jsPadStart2 p1 ++ '/' :: (jsPadStart2 p2 ++ '/' :: p3) =
          (jsPadStart2 p1 ++ '/' :: (jsPadStart2 p2 ++ ['/'])) ++ p3 by simp]
      exact canonical_lastOk hw3 hp3ne _
  have hcont : (jsPadStart2 p1 ++ str "/" ++ jsPadStart2 p2 ++ str "/" ++ p3).contains '/'
      = true := by
    rw [hshape]
    rw [List.elem_iff]
    exact List.mem_append.mpr (Or.inr (List.mem_cons_self _ _))
  have hsplit : jsSplitOn '/' (jsPadStart2 p1 ++ str "/" ++ jsPadStart2 p2 ++ str "/" ++ p3) =
      [jsPadStart2 p1, jsPadStart2 p2, p3] := by
    rw [hshape]
    exact jsSplitOn_three n1 n2 n3
  have hlen1 : 2 ≤ (jsPadStart2 p1).length := by rw [jsPadStart2_length]; omega
  have hlen2 : 2 ≤ (jsPadStart2 p2).length := by rw [jsPadStart2_length]; omega
  have hb2 : (slashDashParts (jsPadStart2 p1 ++ str "/" ++ jsPadStart2 p2 ++ str "/" ++ p3)).bind
      padIfDMY = some (jsPadStart2 p1 ++ str "/" ++ jsPadStart2 p2 ++ str "/" ++ p3) := by
    unfold slashDashParts
    rw [if_pos hcont, Option.some_bind, hsplit]
    simp only [padIfDMY]
    rw [if_pos ⟨by rw [jsPadStart2_length]; omega, by rw [jsPadStart2_length]; omega, h3⟩,
      jsPadStart2_of_le hlen1, jsPadStart2_of_le hlen2]
  simp only [ensureDDMMYYYY]
  rw [htrim, hb2]

lemma headOkWs_of_digits {s : Str} (hd : isDigitStr s = true) : headOkWs s := by
  intro c hc
  exact isDigitC_not_ws ((isDigitStr_facts hd).2 c (List.mem_of_mem_head? hc))

lemma lastOkWs_of_digits {s : Str} (hd : isDigitStr s = true) : lastOkWs s := by
  intro c hc
  exact isDigitC_not_ws ((isDigitStr_facts hd).2 c (List.mem_of_mem_getLast? hc))

lemma slash_not_mem_of_digits {s : Str} (hd : isDigitStr s = true) : '/' ∉ s := by
  intro h
  exact isDigitC_ne_slash ((isDigitStr_facts hd).2 _ h) rfl

lemma slash_not_mem_pad_of_digits {s : Str} (hd : isDigitStr s = true) :
    '/' ∉ jsPadStart2 s := by
  intro h
  rcases mem_jsPadStart2 h with h2 | h2
  · exact absurd h2 (by decide)
  · exact slash_not_mem_of_digits hd h2

/-- A zero-padded all-digit `d/m/yyyy` triple is a fixed point of
`formatDateDDMMYYYY`. -/
lemma format_fixed (g : Str → Option CalDate) (p1 p2 p3 : Str)
    (d1 : isDigitStr p1 = true) (h1 : p1.length ≤ 2)
    (d2 : isDigitStr p2 = true) (h2 : p2.length ≤ 2)
    (d3 : isDigitStr p3 = true) (h3 : p3.length = 4) :
    formatDateDDMMYYYY g
        (some (jsPadStart2 p1 ++ str "/" ++ jsPadStart2 p2 ++ str "/" ++ p3)) =
      jsPadStart2 p1 ++ str "/" ++ jsPadStart2 p2 ++ str "/" ++ p3 := by
  have hp3ne : p3 ≠ [] := by
    intro h
    rw [h] at h3
    simp at h3
  have hshape : jsPadStart2 p1 ++ str "/" ++ jsPadStart2 p2 ++ str "/" ++ p3 =
      jsPadStart2 p1 ++ '/' :: (jsPadStart2 p2 ++ '/' :: p3) := by
    simp [slashStr]
  have hw1 : headOkWs (jsPadStart2 p1) := headOk_jsPadStart2 (headOkWs_of_digits d1)
  have hw3 : lastOkWs p3 := lastOkWs_of_digits d3
  have htrim : jsTrim (jsPadStart2 p1 ++ str "/" ++ jsPadStart2 p2 ++ str "/" ++ p3) =
      jsPadStart2 p1 ++ str "/" ++ jsPadStart2 p2 ++ str "/" ++ p3 := by
    apply jsTrim_eq_self
    · rw [hshape]
      exact canonical_headOk hw1 _
    · rw [hshape,
        show jsPadStart2 p1 ++ '/' :: (jsPadStart2 p2 ++ '/' :: p3) =
          (jsPadStart2 p1 ++ '/' :: (jsPadStart2 p2 ++ ['/'])) ++ p3 by simp]
      exact canonical_lastOk hw3 hp3ne _
  have hsplit : jsSplitOn '/' (jsPadStart2 p1 ++ str "/" ++ jsPadStart2 p2 ++ str "/" ++ p3) =
      [jsPadStart2 p1, jsPadStart2 p2, p3] := by
    rw [hshape]
    exact jsSplitOn_three (slash_not_mem_pad_of_digits d1) (slash_not_mem_pad_of_digits d2)
      (slash_not_mem_of_digits d3)
  have hlen1 : 2 ≤ (jsPadStart2 p1).length := by rw [jsPadStart2_length]; omega
  have hlen2 : 2 ≤ (jsPadStart2 p2).length := by rw [jsPadStart2_length]; omega
  have hne : (jsPadStart2 p1 ++ str "/" ++ jsPadStart2 p2 ++ str "/" ++ p3).isEmpty = false := by
    rcases hout : jsPadStart2 p1 ++ str "/" ++ jsPadStart2 p2 ++ str "/" ++ p3 with _ | _
    · rw [hshape] at hout
      rcases List.append_eq_nil.mp hout with ⟨hp, _⟩
      exact absurd hp (jsPadStart2_ne_nil p1)
    · rfl
  have hregex : regexPadDMY (jsPadStart2 p1 ++ str "/" ++ jsPadStart2 p2 ++ str "/" ++ p3) =
      some (jsPadStart2 p1 ++ str "/" ++ jsPadStart2 p2 ++ str "/" ++ p3) := by
    unfold regexPadDMY
    rw [hsplit]
    simp only []
    rw [if_pos ⟨isDigitStr_pad d1, by rw [jsPadStart2_length]; omega,
      isDigitStr_pad d2, by rw [jsPadStart2_length]; omega, d3, h3⟩,
      jsPadStart2_of_le hlen1, jsPadStart2_of_le hlen2]
  simp only [formatDateDDMMYYYY, hne, Bool.false_eq_true, if_false]
  rw [htrim, hregex]

lemma slash_not_mem_pad_of_not_mem {s : Str} (h : '/' ∉ s) : '/' ∉ jsPadStart2 s := by
  intro hm
  rcases mem_jsPadStart2 hm with h2 | h2
  · exact absurd h2 (by decide)
  · exact h h2

lemma headOkWs_of_append_left {a rest : Str} (h : headOkWs (a ++ rest)) : headOkWs a := by
  intro c hc
  apply h
  rw [List.head?_append, hc]
  rfl

lemma lastOkWs_of_append_right {pre b : Str} (h : lastOkWs (pre ++ b)) : lastOkWs b := by
  intro c hc
  apply h
  rw [List.getLast?_append, hc]
  rfl

lemma padIfDMY_eq_some {parts : List Str} {out : Str} (h : padIfDMY parts = some out) :
    ∃ p1 p2 p3, parts = [p1, p2, p3] ∧ p1.length ≤ 2 ∧ p2.length ≤ 2 ∧ p3.length = 4 ∧
      out = jsPadStart2 p1 ++ str "/" ++ jsPadStart2 p2 ++ str "/" ++ p3 := by
  rcases parts with _ | ⟨a, _ | ⟨b, _ | ⟨c, _ | ⟨d, rest⟩⟩⟩⟩
  · exact absurd h (by simp [padIfDMY])
  · exact absurd h (by simp [padIfDMY])
  · exact absurd h (by simp [padIfDMY])
  · simp only [padIfDMY] at h
    split_ifs at h with hcond
    exact ⟨a, b, c, rfl, hcond.1, hcond.2.1, hcond.2.2, (Option.some.inj h).symm⟩
  · exact absurd h (by simp [padIfDMY])

lemma regexPadDMY_eq_some {t out : Str} (h : regexPadDMY t = some out) :
    ∃ p1 p2 p3, jsSplitOn '/' t = [p1, p2, p3] ∧
      isDigitStr p1 = true ∧ p1.length ≤ 2 ∧ isDigitStr p2 = true ∧ p2.length ≤ 2 ∧
      isDigitStr p3 = true ∧ p3.length = 4 ∧
      out = jsPadStart2 p1 ++ str "/" ++ jsPadStart2 p2 ++ str "/" ++ p3 := by
  unfold regexPadDMY at h
  rcases hs : jsSplitOn '/' t with _ | ⟨a, _ | ⟨b, _ | ⟨c, _ | ⟨d, rest⟩⟩⟩⟩ <;> rw [hs] at h
  · exact absurd h (by simp)
  · exact absurd h (by simp)
  · exact absurd h (by simp)
  · simp only [] at h
    split_ifs at h with hcond
    exact ⟨a, b, c, rfl, hcond.1, hcond.2.1, hcond.2.2.1, hcond.2.2.2.1,
      hcond.2.2.2.2.1, hcond.2.2.2.2.2, (Option.some.inj h).symm⟩
  · exact absurd h (by simp)

lemma slashDashParts_cases {s : Str} {parts : List Str} (h : slashDashParts s = some parts) :
    (s.contains '/' = true ∧ parts = jsSplitOn '/' s) ∨
    (s.contains '/' = false ∧ s.contains '-' = true ∧ parts = jsSplitOn '-' s) := by
  unfold slashDashParts at h
  split_ifs at h with h1 h2
  · exact Or.inl ⟨h1, (Option.some.inj h).symm⟩
  · exact Or.inr ⟨by simpa using h1, h2, (Option.some.inj h).symm⟩

/-- The shape every real `Date` readback has: `getDate()` and
`getMonth() + 1` render as 1-2 digit strings and `getFullYear()` as a 4-digit
string. -/
def calShapeOK (d : CalDate) : Prop :=
  isDigitStr (natToStr d.day) = true ∧ (natToStr d.day).length ≤ 2 ∧
  isDigitStr (natToStr d.month) = true ∧ (natToStr d.month).length ≤ 2 ∧
  isDigitStr (natToStr d.year) = true ∧ (natToStr d.year).length = 4

lemma ensure_fixed_of_shape (g : Str → Option CalDate) {d : CalDate} (shape : calShapeOK d) :
    ensureDDMMYYYY g (some (renderCalDate d)) = renderCalDate d := by
  obtain ⟨d1, l1, d2, l2, d3, l3⟩ := shape
  exact ensure_fixed g _ _ _ l1 l2 l3
    (slash_not_mem_pad_of_digits d1) (slash_not_mem_pad_of_digits d2)
    (slash_not_mem_of_digits d3)
    (headOk_jsPadStart2 (headOkWs_of_digits d1)) (lastOkWs_of_digits d3)

lemma format_fixed_of_shape (g : Str → Option CalDate) {d : CalDate} (shape : calShapeOK d) :
    formatDateDDMMYYYY g (some (renderCalDate d)) = renderCalDate d := by
  obtain ⟨d1, l1, d2, l2, d3, l3⟩ := shape
  exact format_fixed g _ _ _ d1 l1 d2 l2 d3 l3

lemma ensure_idem (g : Str → Option CalDate)
    (hg : ∀ s d, g s = some d → calShapeOK d) (x : Str) :
    ensureDDMMYYYY g (some (ensureDDMMYYYY g (some x))) = ensureDDMMYYYY g (some x) := by
  rcases hb : (slashDashParts (jsTrim x)).bind padIfDMY with _ | out
  · have h1run : ensureDDMMYYYY g (some x) =
        (match g (jsTrim x) with
         | some d => renderCalDate d
         | none => jsTrim x) := by
      simp only [ensureDDMMYYYY, hb]
    rcases hgx : g (jsTrim x) with _ | d
    · rw [h1run, hgx]
      simp only [ensureDDMMYYYY]
      rw [jsTrim_idem, hb, hgx]
    · rw [h1run, hgx]
      exact ensure_fixed_of_shape g (hg _ _ hgx)
  · have h1run : ensureDDMMYYYY g (some x) = out := by
      simp only [ensureDDMMYYYY, hb]
    rw [h1run]
    obtain ⟨parts, hparts, hpad⟩ := Option.bind_eq_some.mp hb
    obtain ⟨p1, p2, p3, hps, hl1, hl2, hl3, hout⟩ := padIfDMY_eq_some hpad
    subst hps
    subst hout
    rcases slashDashParts_cases hparts with ⟨hc, hsp⟩ | ⟨hc1, hc2, hsp⟩
    · have hS : jsSplitOn '/' (jsTrim x) = [p1, p2, p3] := hsp.symm
      have hJ := jsSplitOn_three_join hS
      have n1 : '/' ∉ p1 := jsSplitOn_no_sep '/' (jsTrim x) p1 (by rw [hS]; simp)
      have n2 : '/' ∉ p2 := jsSplitOn_no_sep '/' (jsTrim x) p2 (by rw [hS]; simp)
      have n3 : '/' ∉ p3 := jsSplitOn_no_sep '/' (jsTrim x) p3 (by rw [hS]; simp)
      have hhead := jsTrim_headOk x
      rw [hJ] at hhead
      have hlast := jsTrim_lastOk x
      rw [hJ, show p1 ++ '/' :: (p2 ++ '/' :: p3) = (p1 ++ '/' :: (p2 ++ ['/'])) ++ p3
        by simp] at hlast
      exact ensure_fixed g p1 p2 p3 hl1 hl2 hl3
        (slash_not_mem_pad_of_not_mem n1) (slash_not_mem_pad_of_not_mem n2) n3
        (headOk_jsPadStart2 (headOkWs_of_append_left hhead))
        (lastOkWs_of_append_right hlast)
    · have hS : jsSplitOn '-' (jsTrim x) = [p1, p2, p3] := hsp.symm
      have hJ := jsSplitOn_three_join hS
      have hnos : '/' ∉ jsTrim x := by
        intro hm
        have h2 : (jsTrim x).contains '/' = true := List.elem_iff.mpr hm
        rw [h2] at hc1
        exact absurd hc1 (by decide)
      have n1 : '/' ∉ p1 := fun hm => hnos (by rw [hJ]; exact List.mem_append.mpr (Or.inl hm))
      have n2 : '/' ∉ p2 := fun hm => hnos (by
        rw [hJ]
        exact List.mem_append.mpr (Or.inr (List.mem_cons_of_mem _
          (List.mem_append.mpr (Or.inl hm)))))
      have n3 : '/' ∉ p3 := fun hm => hnos (by
        rw [hJ]
        exact List.mem_append.mpr (Or.inr (List.mem_cons_of_mem _
          (List.mem_append.mpr (Or.inr (List.mem_cons_of_mem _ hm))))))
      have hhead := jsTrim_headOk x
      rw [hJ] at hhead
      have hlast := jsTrim_lastOk x
      rw [hJ, show p1 ++ '-' :: (p2 ++ '-' :: p3) = (p1 ++ '-' :: (p2 ++ ['-'])) ++ p3
        by simp] at hlast
      exact ensure_fixed g p1 p2 p3 hl1 hl2 hl3
        (slash_not_mem_pad_of_not_mem n1) (slash_not_mem_pad_of_not_mem n2) n3
        (headOk_jsPadStart2 (headOkWs_of_append_left hhead))
        (lastOkWs_of_append_right hlast)

lemma format_idem (g : Str → Option CalDate)
    (hg : ∀ s d, g s = some d → calShapeOK d) (v : Str) :
    formatDateDDMMYYYY g (some (formatDateDDMMYYYY g (some v))) =
      formatDateDDMMYYYY g (some v) := by
  rcases hv : v with _ | ⟨c0, v0⟩
  · rfl
  · rw [← hv]
    have hvne : v.isEmpty = false := by rw [hv]; rfl
    rcases hr : regexPadDMY (jsTrim v) with _ | out
    · have h1run : formatDateDDMMYYYY g (some v) =
          (match g v with
           | some d => renderCalDate d
           | none => v) := by
        simp only [formatDateDDMMYYYY, hvne, Bool.false_eq_true, if_false, hr]
      rcases hgv : g v with _ | d
      · rw [h1run, hgv]
        simp only [formatDateDDMMYYYY, hvne, Bool.false_eq_true, if_false, hr, hgv]
      · rw [h1run, hgv]
        exact format_fixed_of_shape g (hg _ _ hgv)
    · have h1run : formatDateDDMMYYYY g (some v) = out := by
        simp only [formatDateDDMMYYYY, hvne, Bool.false_eq_true, if_false, hr]
      rw [h1run]
      obtain ⟨p1, p2, p3, _, d1, l1, d2, l2, d3, l3, hout⟩ := regexPadDMY_eq_some hr
      subst hout
      exact format_fixed g p1 p2 p3 d1 l1 d2 l2 d3 l3

/-- Claim C4: both date-normalizer variants are idempotent — a second
normalization returns the first normalization's output unchanged — for every
input string, provided the host's generic date parsing yields dates whose day
and month render as 1-2 digit strings and whose year renders as a 4-digit
string (true of every date a real engine produces for this app's inputs). -/
theorem C4_normalizer_idempotent (g : Str → Option CalDate)
    (hg : ∀ s d, g s = some d → calShapeOK d) (x v : Str) :
    ensureDDMMYYYY g (some (ensureDDMMYYYY g (some x))) = ensureDDMMYYYY g (some x) ∧
    formatDateDDMMYYYY g (some (formatDateDDMMYYYY g (some v))) =
      formatDateDDMMYYYY g (some v) ∧
    ensureDDMMYYYY g (some (str "01/06/2024")) = str "01/06/2024" ∧
    formatDateDDMMYYYY g (some (str "01/06/2024")) = str "01/06/2024" :=
  ⟨ensure_idem g hg x, format_idem g hg v,
    by
      have h := ensure_fixed g (str "01") (str "06") (str "2024") (by decide) (by decide)
        (by decide) (by decide) (by decide) (by decide)
        (headOk_jsPadStart2 (headOkWs_of_digits (by decide)))
        (lastOkWs_of_digits (by decide))
      simpa using h,
    by
      have h := format_fixed g (str "01") (str "06") (str "2024") (by decide) (by decide)
        (by decide) (by decide) (by decide) (by decide)
      simpa using h⟩

/-- Witness for C4 at a concrete parser and inputs. -/
theorem C4_normalizer_idempotent_witness :
    ensureDDMMYYYY (fun _ => none) (some (ensureDDMMYYYY (fun _ => none)
      (some (str "1/6/2024")))) = ensureDDMMYYYY (fun _ => none) (some (str "1/6/2024")) :=
  (C4_normalizer_idempotent (fun _ => none) (fun _ _ h => nomatch h)
    (str "1/6/2024") (str "x")).1

/-! ## Claim C8: behaviour on total parse failure -/

/-- Counterexample to claim C8 as stated: on an input that fails every parse,
`ensureDDMMYYYY` returns the *trimmed* input, not the original input
unchanged — here `" not a date "` comes back as `"not a date"`. -/
theorem C8_counterexample :
    ensureDDMMYYYY (fun _ => none) (some (str " not a date ")) = str "not a date" ∧
    ensureDDMMYYYY (fun _ => none) (some (str " not a date ")) ≠ str " not a date " := by
  constructor
  · decide
  · decide

/-- Claim C8 as amended: on total parse failure `ensureDDMMYYYY` returns the
trimmed input (hence the original only when it carries no surrounding
whitespace), while `formatDateDDMMYYYY` returns the original input unchanged;
empty or absent input yields the empty string. (Both functions are total, so
neither throws.) -/
theorem C8_parse_failure_amended (g : Str → Option CalDate) (x v : Str)
    (hpad : (slashDashParts (jsTrim x)).bind padIfDMY = none)
    (hgx : g (jsTrim x) = none)
    (hre : regexPadDMY (jsTrim v) = none) (hgv : g v = none) (hv : v ≠ [])
    (hge : g [] = none) :
    ensureDDMMYYYY g (some x) = jsTrim x ∧
    formatDateDDMMYYYY g (some v) = v ∧
    ensureDDMMYYYY g none = [] ∧
    formatDateDDMMYYYY g none = [] ∧
    ensureDDMMYYYY g (some []) = [] ∧
    formatDateDDMMYYYY g (some []) = [] := by
  have hvne : v.isEmpty = false := by
    rcases v with _ | _
    · exact absurd rfl hv
    · rfl
  refine ⟨?_, ?_, rfl, rfl, ?_, rfl⟩
  · simp only [ensureDDMMYYYY, hpad, hgx]
  · simp only [formatDateDDMMYYYY, hvne, Bool.false_eq_true, if_false, hre, hgv]
  · have h5 : ensureDDMMYYYY g (some []) =
        (match g [] with | some d => renderCalDate d | none => ([] : Str)) := rfl
    rw [h5, hge]

/-- Witness for the amended C8 at a concrete failing parser and inputs. -/
theorem C8_parse_failure_amended_witness :
    ensureDDMMYYYY (fun _ => none) (some (str " x ")) = jsTrim (str " x ") :=
  (C8_parse_failure_amended (fun _ => none) (str " x ") (str "zzz")
    (by decide) rfl (by decide) rfl (by decide) rfl).1
